import Mathlib

/-!
Verification development for the meta-repo page generator.

The JavaScript sources (`generate.js`, `server.js`) are shallowly embedded
below.  JavaScript strings are modelled as Lean `String`s; all string
operations are implemented over the underlying character list so that every
definition evaluates by kernel reduction.  Side-effecting operations
(filesystem, network, child processes, the model endpoint) are modelled by
explicit environment parameters: the filesystem is an `FsNode` tree, the
model endpoint is an oracle function, and the job store is driven by an
explicit event trace.
-/

/-! ## String utilities (JS string primitives over character lists) -/

/-- Model of the JS `String.prototype.split(sep)` for a single-character
separator, on character lists: `"".split` gives `[""]`, separators at the
ends give empty fields. -/
def splitChar (c : Char) : List Char → List (List Char)
  | [] => [[]]
  | x :: xs =>
    if x = c then [] :: splitChar c xs
    else match splitChar c xs with
      | h :: t => (x :: h) :: t
      | [] => [[x]]

/-- JS `s.split(c)` on Lean strings. -/
def jsSplit (c : Char) (s : String) : List String :=
  (splitChar c s.data).map (fun l => ⟨l⟩)

/-- JS `s.slice(0, n)` (also `String.prototype.slice` with a start of 0):
the first `n` character units.  (JS counts UTF-16 code units; we count
characters — the difference only shows on astral-plane characters.) -/
def strTake (n : Nat) (s : String) : String := ⟨s.data.take n⟩

/-- JS `s.startsWith(p)`. -/
def strStartsWith (s p : String) : Bool := List.isPrefixOf p.data s.data

/-- JS `s.endsWith(p)`. -/
def strEndsWith (s p : String) : Bool := List.isPrefixOf p.data.reverse s.data.reverse

/-- Whitespace as trimmed by JS `String.prototype.trim` (the common cases:
space, tab, newline, carriage return, form feed, vertical tab). -/
def jsWs (c : Char) : Bool :=
  c = ' ' || c = '\t' || c = '\n' || c = '\r' || c = '\x0b' || c = '\x0c'

/-- JS `s.trim()`. -/
def strTrim (s : String) : String :=
  ⟨((s.data.dropWhile jsWs).reverse.dropWhile jsWs).reverse⟩

/-- Case-insensitive equality of characters (ASCII lowering, as used by the
`i` regex flag on the patterns in the source). -/
def charIEq (a b : Char) : Bool := a.toLower = b.toLower

/-- Does `pat` occur at the head of `text` (exact match)? -/
def seqAt : List Char → List Char → Bool
  | [], _ => true
  | _ :: _, [] => false
  | p :: ps, c :: cs => p = c && seqAt ps cs

/-- Index of the first occurrence of `pat` in `text` (exact match), as used
to model `String.prototype.includes` and fixed-string regex searches. -/
def findSeqIdx (pat : List Char) : List Char → Option Nat
  | [] => if pat.isEmpty then some 0 else none
  | c :: cs =>
    if seqAt pat (c :: cs) then some 0
    else (findSeqIdx pat cs).map (· + 1)

/-- JS `s.includes(pat)`. -/
def strIncludes (s pat : String) : Bool := (findSeqIdx pat.data s.data).isSome

/-- Case-insensitive occurrence test at the head of `text`. -/
def seqAtCI : List Char → List Char → Bool
  | [], _ => true
  | _ :: _, [] => false
  | p :: ps, c :: cs => charIEq p c && seqAtCI ps cs

/-- Index of the first case-insensitive occurrence of `pat` in `text`
(models a case-insensitive fixed-string regex search). -/
def findSeqIdxCI (pat : List Char) : List Char → Option Nat
  | [] => if pat.isEmpty then some 0 else none
  | c :: cs =>
    if seqAtCI pat (c :: cs) then some 0
    else (findSeqIdxCI pat cs).map (· + 1)

/-- JS `s.contains`-style single character membership, `s.includes('/')`
specialised to one character (models `arg.includes('/')`). -/
def strHasChar (s : String) (c : Char) : Bool := s.data.contains c

/-- JS `s.toLowerCase()` (ASCII portion, as used for owner comparisons). -/
def strLower (s : String) : String := ⟨s.data.map Char.toLower⟩

/-- Model of JS `parseInt(str, 10)`: skip leading whitespace, optional
sign, then the longest digit prefix; no digits means `NaN`, modelled as
`none`. -/
def jsParseInt (s : String) : Option Int :=
  let cs := s.data.dropWhile jsWs
  let (sign, cs) : Int × List Char :=
    match cs with
    | '-' :: rest => (-1, rest)
    | '+' :: rest => (1, rest)
    | rest => (1, rest)
  let digits := cs.takeWhile Char.isDigit
  if digits.isEmpty then none
  else some (sign * (digits.foldl (fun acc c => acc * 10 + (c.toNat - 48)) 0 : Nat))

/-! ## JSON values and a model of `JSON.parse`

`generate.js` calls the JS builtin `JSON.parse` in its classifier
(`package.json` library-entry check) and in `readManifest`.  We model the
builtin with a fuelled recursive-descent parser producing `JVal`; `none`
models a thrown `SyntaxError`. -/

inductive JVal where
  | jnull
  | jbool (b : Bool)
  | jnum (raw : String)
  | jstr (s : String)
  | jarr (elems : List JVal)
  | jobj (fields : List (String × JVal))

/-- JSON whitespace. -/
def jsonWs (c : Char) : Bool := c = ' ' || c = '\t' || c = '\n' || c = '\r'

/-- Hex digit test (the environment lacks a builtin one). -/
def charIsHex (c : Char) : Bool :=
  c.isDigit || ('a' ≤ c.toLower && c.toLower ≤ 'f')

/-- Parse the body of a JSON string literal (opening quote already
consumed); returns the decoded characters and the remaining input. -/
def parseJStr (cs : List Char) : Option (List Char × List Char) :=
  match cs with
  | [] => none
  | '"' :: rest => some ([], rest)
  | '\\' :: e :: rest =>
    match e with
    | '"' => (parseJStr rest).map (fun (s, r) => ('"' :: s, r))
    | '\\' => (parseJStr rest).map (fun (s, r) => ('\\' :: s, r))
    | '/' => (parseJStr rest).map (fun (s, r) => ('/' :: s, r))
    | 'b' => (parseJStr rest).map (fun (s, r) => ('\x08' :: s, r))
    | 'f' => (parseJStr rest).map (fun (s, r) => ('\x0c' :: s, r))
    | 'n' => (parseJStr rest).map (fun (s, r) => ('\n' :: s, r))
    | 'r' => (parseJStr rest).map (fun (s, r) => ('\r' :: s, r))
    | 't' => (parseJStr rest).map (fun (s, r) => ('\t' :: s, r))
    | 'u' =>
      match rest with
      | h1 :: h2 :: h3 :: h4 :: rest' =>
        if charIsHex h1 && charIsHex h2 && charIsHex h3 && charIsHex h4 then
          let v := [h1, h2, h3, h4].foldl
            (fun acc c => acc * 16 +
              (if c.isDigit then c.toNat - 48
               else if 'a' ≤ c.toLower && c.toLower ≤ 'f' then c.toLower.toNat - 87
               else 0)) 0
          (parseJStr rest').map (fun (s, r) => (Char.ofNat v :: s, r))
        else none
      | _ => none
    | _ => none
  | c :: rest =>
    if c.toNat < 32 then none
    else (parseJStr rest).map (fun (s, r) => (c :: s, r))

/-- Characters that can appear in a JSON number token. -/
def jsonNumChar (c : Char) : Bool :=
  c.isDigit || c = '-' || c = '+' || c = '.' || c = 'e' || c = 'E'

/-- Validity of a JSON number token: `-?(0|[1-9][0-9]*)(.[0-9]+)?([eE][+-]?[0-9]+)?`. -/
def jsonNumValid (cs : List Char) : Bool :=
  let afterSign := match cs with | '-' :: r => r | r => r
  let (intPart, afterInt) := (afterSign.takeWhile Char.isDigit, afterSign.dropWhile Char.isDigit)
  let intOk := !intPart.isEmpty &&
    (intPart.length = 1 || intPart.headD '0' ≠ '0')
  let (fracOk, afterFrac) :=
    match afterInt with
    | '.' :: r =>
      let d := r.takeWhile Char.isDigit
      (!d.isEmpty, r.dropWhile Char.isDigit)
    | r => (true, r)
  let expOk :=
    match afterFrac with
    | [] => true
    | e :: r =>
      if e = 'e' || e = 'E' then
        let r := match r with | '+' :: r' => r' | '-' :: r' => r' | r' => r'
        !r.isEmpty && r.all Char.isDigit
      else false
  intOk && fracOk && expOk

mutual

/-- Fuelled JSON value parser (model of the builtin `JSON.parse` grammar);
mutual recursion with the array-element and object-member parsers, all
strictly decreasing on fuel. -/
def parseJVal (fuel : Nat) (cs : List Char) : Option (JVal × List Char) :=
  match fuel with
  | 0 => none
  | fuel + 1 =>
    match cs.dropWhile jsonWs with
    | 'n' :: 'u' :: 'l' :: 'l' :: rest => some (.jnull, rest)
    | 't' :: 'r' :: 'u' :: 'e' :: rest => some (.jbool true, rest)
    | 'f' :: 'a' :: 'l' :: 's' :: 'e' :: rest => some (.jbool false, rest)
    | '"' :: rest => (parseJStr rest).map (fun (s, r) => (.jstr ⟨s⟩, r))
    | '[' :: rest =>
      (match (rest.dropWhile jsonWs) with
       | ']' :: r => some (.jarr [], r)
       | _ => (parseJElems fuel rest).map (fun (es, r) => (.jarr es, r)))
    | '{' :: rest =>
      (match (rest.dropWhile jsonWs) with
       | '}' :: r => some (.jobj [], r)
       | _ => (parseJPairs fuel rest).map (fun (fs, r) => (.jobj fs, r)))
    | c :: rest =>
      let tok := (c :: rest).takeWhile jsonNumChar
      if jsonNumValid tok then some (.jnum ⟨tok⟩, (c :: rest).dropWhile jsonNumChar)
      else none
    | [] => none

/-- Comma-separated JSON array elements up to the closing bracket. -/
def parseJElems (fuel : Nat) (cs : List Char) : Option (List JVal × List Char) :=
  match fuel with
  | 0 => none
  | fuel + 1 =>
    match parseJVal fuel cs with
    | none => none
    | some (v, rest) =>
      match rest.dropWhile jsonWs with
      | ']' :: r => some ([v], r)
      | ',' :: r => (parseJElems fuel r).map (fun (vs, r') => (v :: vs, r'))
      | _ => none

/-- Comma-separated JSON object members up to the closing brace. -/
def parseJPairs (fuel : Nat) (cs : List Char) : Option (List (String × JVal) × List Char) :=
  match fuel with
  | 0 => none
  | fuel + 1 =>
    match cs.dropWhile jsonWs with
    | '"' :: rest =>
      match parseJStr rest with
      | none => none
      | some (key, afterKey) =>
        match afterKey.dropWhile jsonWs with
        | ':' :: afterColon =>
          match parseJVal fuel afterColon with
          | none => none
          | some (v, rest') =>
            match rest'.dropWhile jsonWs with
            | '}' :: r => some ([(⟨key⟩, v)], r)
            | ',' :: r => (parseJPairs fuel r).map (fun (fs, r') => ((⟨key⟩, v) :: fs, r'))
            | _ => none
        | _ => none
    | _ => none

end

/-- Model of `JSON.parse(s)`: `none` models a thrown `SyntaxError`. -/
def jsonParse (s : String) : Option JVal :=
  match parseJVal (2 * s.data.length + 2) s.data with
  | none => none
  | some (v, rest) => if (rest.dropWhile jsonWs).isEmpty then some v else none

/-- JS property read `obj.key` on a parsed JSON value: only objects carry
properties; later duplicate keys win, as with `JSON.parse`. -/
def jvalGet (v : JVal) (key : String) : Option JVal :=
  match v with
  | .jobj fields => (fields.reverse.find? (fun f => f.1 = key)).map (·.2)
  | _ => none

/-- JS truthiness of a parsed JSON value (a missing property, `none`, is
`undefined` and falsy). -/
def jsTruthy : Option JVal → Bool
  | none => false
  | some .jnull => false
  | some (.jbool b) => b
  | some (.jstr s) => !s.data.isEmpty
  | some (.jnum raw) => (raw.data.takeWhile (fun c => c ≠ 'e' && c ≠ 'E')).any (fun c => '1' ≤ c && c ≤ '9')
  | some (.jarr _) => true
  | some (.jobj _) => true

/-! ## Filesystem model

A checkout is a tree of named files and directories; `fs*` functions model
the `fs` calls in `generate.js` (`readFileSync`, `existsSync`,
`readdirSync`), with `none`/`false` modelling thrown-and-caught errors. -/

inductive FsNode where
  | file (name : String) (content : String)
  | dir (name : String) (children : List FsNode)

def FsNode.name : FsNode → String
  | .file n _ => n
  | .dir n _ => n

def FsNode.isDir : FsNode → Bool
  | .file _ _ => false
  | .dir _ _ => true

def FsNode.children : FsNode → List FsNode
  | .file _ _ => []
  | .dir _ cs => cs

/-- Split a relative path such as `src/train.py` into components, as
`path.join(repoPath, p)` makes the nested lookup. -/
def splitPath (p : String) : List String := jsSplit '/' p

/-- Resolve a non-empty component path inside a directory listing. -/
def fsLookup (ns : List FsNode) : List String → Option FsNode
  | [] => none
  | [p] => ns.find? (fun e => e.name = p)
  | p :: ps =>
    match ns.find? (fun e => e.name = p) with
    | some (.dir _ cs) => fsLookup cs ps
    | _ => none

/-- Model of `readFileSync(path, 'utf8')`: `none` models a throw (missing
file, or a directory). -/
def fsReadFile (root : List FsNode) (p : String) : Option String :=
  match fsLookup root (splitPath p) with
  | some (.file _ c) => some c
  | _ => none

/-- Model of `existsSync(path)`. -/
def fsExists (root : List FsNode) (p : String) : Bool :=
  (fsLookup root (splitPath p)).isSome

/-- Model of `readdirSync(path)`: `none` models a throw (missing path or a
plain file). -/
def fsListDir (root : List FsNode) (p : String) : Option (List FsNode) :=
  match fsLookup root (splitPath p) with
  | some (.dir _ cs) => some cs
  | _ => none

/-- Embeds `readFileSafe(filePath, maxChars)`: read and hard-truncate,
`null` (here `none`) on any read error. -/
def readFileSafe (root : List FsNode) (p : String) (maxChars : Nat) : Option String :=
  (fsReadFile root p).map (strTake maxChars)

/-! ## Directory tree rendering (`dirTree`) -/

/-- The fixed `IGNORE` denylist in `dirTree`. -/
def ignoreDirs : List String :=
  ["node_modules", "__pycache__", ".git", "dist", "build",
   ".next", ".nuxt", "target", "venv", ".venv", ".mypy_cache", "coverage"]

/-- The entry filter in `dirTree`: drop dotfiles and denylisted names. -/
def dirTreeKeep (e : FsNode) : Bool :=
  !(strStartsWith e.name ".") && !(ignoreDirs.contains e.name)

/-- Body of `dirTree`, recursing on the remaining depth budget
`fuel = maxDepth - depth` (so the source's entry guard `depth >= maxDepth`
is `fuel = 0`, and its recursion guard `depth < maxDepth - 1` is
`0 < fuel` at the decremented level): guard the depth, filter, cap at 40,
then emit one line per entry — `forEach` with its `isLast` connector
choice — followed by the subdirectory's own rendering.  One `String` per
rendered line; the source appends `'\n'` after each line and concatenates
(see `dirTree` below). -/
def dirTreeFuel : Nat → String → List FsNode → List String
  | 0, _, _ => []
  | fuel + 1, pre, ns =>
    let filtered := (ns.filter dirTreeKeep).take 40
    filtered.enum.flatMap (fun ie =>
      let i := ie.1
      let e := ie.2
      let isLast := i == filtered.length - 1
      let connector := if isLast then "└── " else "├── "
      let line := pre ++ connector ++ e.name ++ (if e.isDir then "/" else "")
      let sub :=
        if e.isDir && decide (0 < fuel) then
          dirTreeFuel fuel (pre ++ (if isLast then "    " else "│   ")) e.children
        else []
      line :: sub)

/-- Embeds `dirTree(dir, maxDepth, depth, prefix)` as its list of rendered
lines. -/
def dirTreeLines (maxDepth depth : Nat) (pre : String) (ns : List FsNode) : List String :=
  dirTreeFuel (maxDepth - depth) pre ns

/-- Embeds `dirTree(dir, maxDepth)` (the string produced by the source:
each line followed by a newline). -/
def dirTree (maxDepth : Nat) (ns : List FsNode) : String :=
  String.join ((dirTreeLines maxDepth 0 "" ns).map (· ++ "\n"))

/-! ## Recursive file search (`findFile`) -/

/-- Body of `findFile`, recursing on the remaining depth budget
`fuel = maxDepth + 1 - depth` (the source's entry guard `depth > maxDepth`
is `fuel = 0`): an entry matches when it is not a dotfile and either
satisfies the predicate or is a searchable directory whose subtree
matches. -/
def findFileFuel (pred : String → Bool → Bool) : Nat → List FsNode → Bool
  | 0, _ => false
  | fuel + 1, ns =>
    ns.any (fun e =>
      if strStartsWith e.name "." then false
      else if pred e.name e.isDir then true
      else if e.isDir && e.name != "node_modules" && e.name != ".git" then
        findFileFuel pred fuel e.children
      else false)

/-- Embeds `findFile(dir, predicate, maxDepth, depth)`: depth-limited
search for an entry satisfying `pred name isDirectory`, skipping dotfiles,
recursing into directories other than `node_modules` and `.git`. -/
def findFile (pred : String → Bool → Bool) (maxDepth depth : Nat) (ns : List FsNode) : Bool :=
  findFileFuel pred (maxDepth + 1 - depth) ns

/-! ## Repository type detection (`detectType`)

The regex literals of the source are modelled as alternation lists of
pattern characters: a literal character matches case-insensitively (the
`i` flag), `anyDot` is the regex `.`, and `quoteCls` is the `["']`
character class. -/

inductive PatChar where
  | lit (c : Char)
  | anyDot
  | quoteCls

def patCharMatch : PatChar → Char → Bool
  | .lit p, c => charIEq p c
  | .anyDot, c => c != '\n'
  | .quoteCls, c => c = '"' || c = '\''

def patAt : List PatChar → List Char → Bool
  | [], _ => true
  | _ :: _, [] => false
  | p :: ps, c :: cs => patCharMatch p c && patAt ps cs

def patSearch (pat : List PatChar) : List Char → Bool
  | [] => patAt pat []
  | c :: cs => patAt pat (c :: cs) || patSearch pat cs

def lits (s : String) : List PatChar := s.data.map .lit

/-- Regex alternation test (`pattern.test(content)`). -/
def regexAlts (alts : List (List PatChar)) (s : String) : Bool :=
  alts.any (fun a => patSearch a s.data)

/-- The `/pandas|numpy|scikit.learn|torch|tensorflow|keras|xgboost|lightgbm/i` literal. -/
def mlPat : List (List PatChar) :=
  [lits "pandas", lits "numpy", lits "scikit" ++ [.anyDot] ++ lits "learn",
   lits "torch", lits "tensorflow", lits "keras", lits "xgboost", lits "lightgbm"]

/-- The `/react|vue|svelte|next|flask|fastapi/i` guard on the workflows check. -/
def workflowGuardPat : List (List PatChar) :=
  [lits "react", lits "vue", lits "svelte", lits "next", lits "flask", lits "fastapi"]

/-- The front-end framework literal with its quote classes. -/
def frontendPat : List (List PatChar) :=
  (["react", "vue", "svelte", "next", "nuxt", "angular", "solid-js"]).map
    (fun w => [PatChar.quoteCls] ++ lits w ++ [PatChar.quoteCls])

/-- The `/fastapi|flask|express|fastify|django|gin|actix-web|fiber|hono/i` literal. -/
def apiPat : List (List PatChar) :=
  [lits "fastapi", lits "flask", lits "express", lits "fastify", lits "django",
   lits "gin", lits "actix-web", lits "fiber", lits "hono"]

/-- The `/commander|yargs|clap|argparse|click|cobra|oclif/i` literal. -/
def cliPat : List (List PatChar) :=
  [lits "commander", lits "yargs", lits "clap", lits "argparse", lits "click",
   lits "cobra", lits "oclif"]

/-- The candidate package files scanned by `pkgMatches`. -/
def pkgMatchFiles : List String :=
  ["package.json", "requirements.txt", "Cargo.toml",
   "pyproject.toml", "go.mod", "setup.py", "Gemfile"]

/-- Embeds the `pkgMatches` closure of `detectType`: any candidate package
file whose (truncated, truthy — i.e. non-empty) content matches the
pattern. -/
def pkgMatches (root : List FsNode) (alts : List (List PatChar)) : Bool :=
  pkgMatchFiles.any (fun f =>
    match readFileSafe root f 4000 with
    | some c => !c.data.isEmpty && regexAlts alts c
    | none => false)

/-- Embeds the `has` closure: `existsSync(join(repoPath, name))`. -/
def hasFsFile (root : List FsNode) (name : String) : Bool := fsExists root name

/-- Embeds the `hasDir` closure: the name exists and lists as a non-empty
directory (a listing error downgrades to `false`). -/
def hasFsDir (root : List FsNode) (name : String) : Bool :=
  hasFsFile root name &&
    (match fsListDir root name with
     | some cs => decide (cs.length > 0)
     | none => false)

/-- Embeds the `package.json` library-entry check of `detectType`: the file
reads non-empty, `JSON.parse` succeeds, and one of `main`, `exports`,
`module`, `types` is truthy (a parse failure — or the property access
throwing on a parsed `null` — is caught and falls through). -/
def pkgJsonLib (root : List FsNode) : Bool :=
  match readFileSafe root "package.json" 2000 with
  | some pkg =>
    !pkg.data.isEmpty &&
      (match jsonParse pkg with
       | some p =>
         jsTruthy (jvalGet p "main") || jsTruthy (jvalGet p "exports") ||
           jsTruthy (jvalGet p "module") || jsTruthy (jvalGet p "types")
       | none => false)
  | none => false

/-- Embeds the `Cargo.toml` library check:
`readFileSafe(...)?.includes('[lib]')`. -/
def cargoLib (root : List FsNode) : Bool :=
  match readFileSafe root "Cargo.toml" 2000 with
  | some c => strIncludes c "[lib]"
  | none => false

/-- Embeds `detectType(repoPath)`: the classifier's conditional cascade, in
source order. -/
def detectType (root : List FsNode) : String :=
  if findFile (fun n _ => strEndsWith n ".ipynb") 2 0 root then "ml"
  else if pkgMatches root mlPat then "ml"
  else if hasFsFile root "lerna.json" || hasFsFile root "turbo.json" ||
      hasFsFile root "pnpm-workspace.yaml" || hasFsDir root "packages" ||
      hasFsDir root "apps" then "monorepo"
  else if findFile (fun n _ => strEndsWith n ".tf") 2 0 root then "infra"
  else if (hasFsFile root "Dockerfile" || hasFsFile root "docker-compose.yml" ||
      hasFsFile root "docker-compose.yaml" || hasFsDir root "k8s" ||
      hasFsDir root "kubernetes" ||
      (hasFsDir root ".github/workflows" && !pkgMatches root workflowGuardPat)) &&
      (hasFsFile root "Dockerfile" || hasFsFile root "docker-compose.yml") then "infra"
  else if pkgMatches root frontendPat then "frontend"
  else if pkgMatches root apiPat then "api"
  else if hasFsDir root "bin" || pkgMatches root cliPat then "cli"
  else if pkgJsonLib root then "library"
  else if cargoLib root then "library"
  else "generic"

/-! ## Repository analysis (`analyzeRepo`) -/

/-- Embeds the `analysis` record of `analyzeRepo` (the source field
`structure` is spelled `structureText` here — `structure` is reserved). -/
structure Analysis where
  owner : String
  repo : String
  type : String
  structureText : String
  readme : String
  packageFile : String
  packageContent : String
  sourceFiles : List (String × String)

/-- README variants scanned in order. -/
def readmeNames : List String := ["README.md", "README.rst", "README.txt", "README"]

/-- Package/manifest files scanned in order. -/
def pkgManifestNames : List String :=
  ["package.json", "Cargo.toml", "pyproject.toml", "requirements.txt",
   "go.mod", "setup.py", "Gemfile", "composer.json"]

/-- First name from `names` whose read is truthy (readable and non-empty),
with its truncated content — the `for … if (c) break` loops of
`analyzeRepo`. -/
def firstReadable (root : List FsNode) (names : List String) (maxChars : Nat) :
    Option (String × String) :=
  match names with
  | [] => none
  | f :: rest =>
    match readFileSafe root f maxChars with
    | some c => if !c.data.isEmpty then some (f, c) else firstReadable root rest maxChars
    | none => firstReadable root rest maxChars

/-- The `candidates` table of `analyzeRepo`: key source files by type. -/
def sourceCandidates (t : String) : List String :=
  if t = "ml" then ["train.py", "model.py", "src/train.py", "src/model.py", "main.py"]
  else if t = "api" then ["main.py", "app.py", "server.js", "app.js", "src/main.py", "src/app.ts"]
  else if t = "cli" then ["src/main.rs", "src/main.py", "bin/cli.js", "cmd/root.go", "main.go", "cli.py"]
  else if t = "frontend" then ["src/App.tsx", "src/App.jsx", "src/app.tsx", "src/main.tsx", "pages/index.tsx", "src/routes/+page.svelte"]
  else if t = "library" then ["src/index.ts", "src/index.js", "src/lib.rs", "src/lib.ts", "lib/index.js", "index.ts"]
  else if t = "infra" then ["Dockerfile", "docker-compose.yml", "main.tf", ".github/workflows/deploy.yml"]
  else if t = "monorepo" then ["package.json", "turbo.json", "lerna.json"]
  else ["main.py", "main.js", "main.go", "main.rs", "index.js", "index.ts", "app.py"]

/-- Collect up to two truthy candidate source files (the final loop of
`analyzeRepo`); `k` counts files already pushed. -/
def collectSources (root : List FsNode) (k : Nat) : List String → List (String × String)
  | [] => []
  | p :: rest =>
    match readFileSafe root p 1500 with
    | some c =>
      if !c.data.isEmpty then
        if k + 1 ≥ 2 then [(p, c)]
        else (p, c) :: collectSources root (k + 1) rest
      else collectSources root k rest
    | none => collectSources root k rest

/-- Embeds `analyzeRepo(repoPath, owner, repo)`. -/
def analyzeRepo (root : List FsNode) (owner repo : String) : Analysis :=
  let structureText := dirTree 2 root
  let readme := match firstReadable root readmeNames 4000 with
    | some (_, c) => c
    | none => ""
  let pkg := firstReadable root pkgManifestNames 2500
  let type := detectType root
  { owner := owner
    repo := repo
    type := type
    structureText := structureText
    readme := readme
    packageFile := (pkg.map (·.1)).getD ""
    packageContent := (pkg.map (·.2)).getD ""
    sourceFiles := collectSources root 0 (sourceCandidates type) }

/-! ## Template catalog (`getTypeTemplate`) -/

/-- The `templates.ml` string constant. -/
def templateMl : String := "
VISUAL TEMPLATE: Research Pipeline / Data Science
- Hero section: dataset/project name with a prominent \"data science\" visual indicator
- Horizontal pipeline diagram showing stages as connected cards:
  Raw Data → Preprocessing → Feature Engineering → Model Training → Evaluation → Results
- Key metrics panel: accuracy, F1, RMSE, or similar — displayed as large colorful STAT TILES
- \"Data Snapshot\" section: mock/described table preview of the dataset (5 rows)
- Model architecture or algorithm callout card
- Results visualization section with bar/line chart represented as styled divs
- Color palette: blues, purples, teals — scientific feel
- Icons: 🧪 📊 🔬 📈 🤖"

/-- The `templates.api` string constant. -/
def templateApi : String := "
VISUAL TEMPLATE: Interactive API Map
- Hero: service name + one-sentence description of what the API does
- Endpoint gallery: each route as a card with METHOD badge:
  GET (green), POST (blue), PUT (yellow), DELETE (red), PATCH (orange)
  Include: path, brief description, request/response summary
- Architecture diagram as a horizontal flow:
  Client → API Gateway → Middleware → Routes → Database/Services
- Authentication section with shield icon showing auth method (JWT, OAuth, API key)
- Key stats tiles: number of endpoints, auth type, database, avg response time
- Color palette: greens, teals, with method-color accents
- Icons: 🌐 🔒 ⚡ 🛡️ 📡"

/-- The `templates.cli` string constant. -/
def templateCli : String := "
VISUAL TEMPLATE: Terminal-Style Showcase
- Hero: tool name displayed in a REALISTIC dark terminal window with the command:
  $ tool-name --help  (then show the help output styled as terminal text)
- Command tree: visual hierarchy of subcommands and flags, styled like a file tree
  ├── command1 [flags]
  └── command2 [flags]
- \"What it does\" as 3 punchy icon+text feature cards
- Example usage section: multiple dark code blocks with realistic, practical examples
- Installation section: package manager commands (npm install -g / cargo install / pip install)
- Color palette: dark background (#0d1117), green terminal text, amber for prompts
- Icons: 💻 ⚙️ 🔧 🚀 📦"

/-- The `templates.frontend` string constant. -/
def templateFrontend : String := "
VISUAL TEMPLATE: Component Showcase / UI Gallery
- Hero: app name + tagline, with a gradient glass card and screenshot-like wireframe
- Component map: a visual grid of key UI components as mini labeled cards with icons
- Page/route flow diagram: screens connected by arrows
  e.g. Landing → Login → Dashboard → Settings → Profile
- Tech stack badges: logos/names of React/Vue/Svelte, styling library, build tool, etc.
- \"Key Screens\" section: describe/sketch 3-4 main views as labeled wireframe-style cards
- Feature highlights: 3-6 cards describing what makes the UX special
- Color palette: vibrant gradients, glassmorphism, product-design feel
- Icons: 🎨 ✨ 📱 🖥️ ⚡"

/-- The `templates.library` string constant. -/
def templateLibrary : String := "
VISUAL TEMPLATE: Developer Docs Landing Page
- Hero: package name + ONE-LINE install command in a prominent copyable code block:
  npm install package-name  or  pip install package  or  cargo add package
  Include version badge and download count stat
- \"Why use this?\" — exactly 3 value-proposition cards with icons and 2-3 sentence descriptions
- API surface table: key functions/methods/classes with signatures and one-line descriptions
- Code example: a realistic, practical usage example in a styled dark code block
- Compatibility section: language/runtime version badges, browser support, bundle size
- Ecosystem/dependency diagram if relevant
- Color palette: clean neutral with accent highlights — professional docs feel
- Icons: 📦 ⚡ 🔌 🛠️ 📚"

/-- The `templates.infra` string constant. -/
def templateInfra : String := "
VISUAL TEMPLATE: Cloud Architecture Diagram
- Hero: what infrastructure this provisions/manages in one clear sentence
- Architecture diagram using styled divs and arrows to show:
  Services (DB, cache, queue, compute nodes) connected by labeled arrows
  Color-code by service type (database=blue, cache=red, compute=green, etc.)
- Resource inventory table: service/resource name, type, region, purpose
- Environment pipeline strip: Dev → Staging → Production with status indicators
- Configuration highlights: key env vars and config options (names and descriptions ONLY — no values)
- Security section: IAM/RBAC, networking rules, secrets management approach
- Color palette: slate, indigo, with service-type color accents
- Icons: ☁️ 🗄️ ⚡ 🔒 🌐 📊"

/-- The `templates.monorepo` string constant. -/
def templateMonorepo : String := "
VISUAL TEMPLATE: Constellation / Package Map
- Hero: monorepo name + total package count + brief description
- Package constellation: a visual graph where each package is a node (styled card)
  Sized differently based on importance/LOC, connected by dependency arrows
  Each package gets its own accent color
- Per-package cards: name, version, description, key exports/entry points
- Dependency matrix: show which packages depend on which (visual grid or arrow map)
- Shared tooling strip: linter, formatter, test runner, CI — shown as icon badges
- Getting started section: install + build commands
- Color palette: multi-hue — each package has its own color from a defined palette
- Icons: 🗂️ 📦 🔗 ⚙️ 🚀"

/-- The `templates.generic` string constant. -/
def templateGeneric : String := "
VISUAL TEMPLATE: Project Showcase (Default)
- Hero: project name, one-sentence description, and 2-3 key value props as badges
- Overview card: what problem it solves, who it\x27s for, why it matters — NOT a README dump
- Key Features: 4-6 feature cards, each with an icon, name, and 1-2 sentence description
- How It Works / Architecture: diagram or numbered step-by-step flow with visual connectors
- Tech Stack: language/framework/tool badges in a grid
- Getting Started: installation and quick-start code in a dark code block
- Color palette: clean, professional with orange accent highlights
- Icons: chosen to match the project domain"

/-- Embeds `getTypeTemplate(type)`: `templates[type] || templates.generic`. -/
def getTypeTemplate (t : String) : String :=
  if t = "ml" then templateMl
  else if t = "api" then templateApi
  else if t = "cli" then templateCli
  else if t = "frontend" then templateFrontend
  else if t = "library" then templateLibrary
  else if t = "infra" then templateInfra
  else if t = "monorepo" then templateMonorepo
  else templateGeneric

/-! ## Context construction (`buildContext`) -/

/-- The `External — owner` marker text shared by the context warning, the
initial prompt requirement and the refinement directive. -/
def externalMarker (owner : String) : String := "External — " ++ owner

/-- Embeds `buildContext(analysis, isExternal)`. -/
def buildContext (a : Analysis) (isExternal : Bool) : String :=
  let sections : List String :=
    ["## Repository: " ++ a.owner ++ "/" ++ a.repo] ++
    (if isExternal then
      ["⚠️  EXTERNAL REPOSITORY — You MUST display an \"" ++ externalMarker a.owner ++
        "\" badge prominently at the top of the page (below the repo title). Style it with an orange/warning color."]
     else []) ++
    ["## Detected Project Type: " ++ a.type,
     "## Directory Structure\n```\n" ++ (if a.structureText.data.isEmpty then "(empty)" else a.structureText) ++ "```"] ++
    [if !a.readme.data.isEmpty then "## README (truncated)\n" ++ strTake 3500 a.readme
     else "## README\n(No README found)"] ++
    (if !a.packageContent.data.isEmpty then
      ["## " ++ a.packageFile ++ "\n```\n" ++ a.packageContent ++ "\n```"]
     else []) ++
    a.sourceFiles.map (fun sf => "## " ++ sf.1 ++ " (key source file)\n```\n" ++ sf.2 ++ "\n```")
  String.intercalate "\n\n" sections

/-! ## Design CSS and prompts (`DESIGN_CSS`, `generatePage` prompt bodies) -/

/-- The `DESIGN_CSS` constant (after its `.trim()`). -/
def designCss : String := ":root \x7b
  --bg-primary:#f5f5f7; --bg-secondary:#ffffff; --bg-tertiary:#f0f0f2; --bg-card:#ffffff;
  --text-primary:rgb(43,25,16); --text-secondary:#86868b; --border-color:rgba(0,0,0,0.08);
  --accent-color:rgb(224,100,57); --accent-hover:rgb(200,85,45); --accent-subtle:rgba(224,100,57,0.1);
  --success-color:#34c759; --warning-color:#ff9500; --error-color:#ff3b30; --info-color:#007aff;
  --shadow-sm:0 1px 2px 0 rgba(0,0,0,0.05);
  --shadow-md:0 4px 6px -1px rgba(0,0,0,0.1),0 2px 4px -1px rgba(0,0,0,0.06);
  --shadow-lg:0 8px 32px rgba(0,0,0,0.12);
  --radius-sm:8px; --radius-md:12px; --radius-lg:16px; --radius-xl:24px;
\x7d
[data-theme=\"dark\"] \x7b
  --bg-primary:#000000; --bg-secondary:#1c1c1e; --bg-tertiary:#2c2c2e; --bg-card:#1c1c1e;
  --text-primary:#f5f5f7; --text-secondary:#86868b; --border-color:rgba(255,255,255,0.1);
  --accent-color:rgb(224,100,57); --accent-hover:rgb(240,115,70); --accent-subtle:rgba(224,100,57,0.15);
  --success-color:#30d158; --warning-color:#ff9f0a; --error-color:#ff453a; --info-color:#0a84ff;
  --shadow-sm:0 1px 2px 0 rgba(0,0,0,0.3);
  --shadow-md:0 4px 6px -1px rgba(0,0,0,0.4),0 2px 4px -1px rgba(0,0,0,0.2);
  --shadow-lg:0 8px 32px rgba(0,0,0,0.5);
\x7d
*,*::before,*::after\x7bbox-sizing:border-box;margin:0;padding:0\x7d
html\x7bfont-family:-apple-system,BlinkMacSystemFont,\"SF Pro Display\",\"Segoe UI\",Roboto,sans-serif;-webkit-font-smoothing:antialiased\x7d
body\x7bbackground:var(--bg-primary);color:var(--text-primary);min-height:100vh;transition:background .3s,color .3s\x7d"

/-- The `SYSTEM` prompt of `generatePage`. -/
def systemPrompt : String :=
  "You are an expert UI/UX designer and front-end developer creating beautiful, self-contained HTML showcase pages for GitHub repositories.

Design System CSS Variables (USE THESE EXACTLY):
```css
" ++ designCss ++ "
```

Hard rules:
1. Output ONLY a complete HTML document starting with <!DOCTYPE html> — no preamble, no explanation.
2. All CSS and JavaScript must be inline (no external dependencies, no CDN links).
3. Include a dark/light mode toggle: toggle the `data-theme` attribute on the `<html>` element; persist to localStorage.
4. The page must be mobile-responsive.
5. Make it visually STUNNING — use cards, icons (Unicode or inline SVG), gradients, stat tiles, diagrams.
6. Do NOT dump the README verbatim — transform and curate the content visually.
7. Include a \"← Back to Explorer\" link at the top linking to ../../index.html."

/-- The `INITIAL_PROMPT` of `generatePage`. -/
def initialPrompt (a : Analysis) (isExternal : Bool) : String :=
  "Repository context:
" ++ buildContext a isExternal ++ "

Visual template for \"" ++ a.type ++ "\" projects:
" ++ getTypeTemplate a.type ++ "

Generate a complete single-file HTML page that visually showcases the " ++
    a.owner ++ "/" ++ a.repo ++ " repository.

Requirements:
- Follow the visual template above for \"" ++ a.type ++ "\" projects
- Use the CSS design system variables provided
- Include: what it does, why it matters, how it works, tech stack
- Make it visually ENGAGING — not a wall of text
- Include a realistic, working dark/light mode toggle
- Include a \"← Back to Explorer\" link at the top (href=\"../../index.html\")
" ++ (if isExternal then
        "- Add an \"" ++ externalMarker a.owner ++ "\" warning badge near the top, styled in warning orange"
      else "") ++ "

Output only the complete HTML document."

/-- The per-round `refinePrompt` of `generatePage` (iteration `i` of
`iterations`, on working document `html`). -/
def refinePrompt (a : Analysis) (isExternal : Bool) (iterations i : Nat) (html : String) : String :=
  "You previously generated this HTML page for the " ++ a.owner ++ "/" ++ a.repo ++
    " (" ++ a.type ++ ") repository.

Current version:
```html
" ++ strTake 12000 html ++ "
```

This is iteration " ++ toString i ++ " of " ++ toString iterations ++ ". Make SIGNIFICANT improvements:
- Fix any layout bugs, broken dark mode, or poor contrast
- Add richer visual elements: diagrams, flow arrows, stat tiles, progress indicators
- Improve information density and scannability — use a grid layout where possible
- Ensure every section matches the \"" ++ a.type ++ "\" visual template
- Tighten copy: be specific, punchy, and informative
- Enhance mobile responsiveness
" ++ (if isExternal then
        "- Keep the \"" ++ externalMarker a.owner ++ "\" badge prominently visible"
      else "") ++ "

Output only the improved complete HTML document."

/-! ## Document extraction (`extractHTML`) -/

/-- Fenced-block branch of `extractHTML`: the regex
`/```html?\s*([\s\S]+?)```/i`.  The earliest opening fence wins; the lazy
capture ends at the first closing fence at least one character onward; the
greedy-whitespace/lazy-capture backtracking of the engine is absorbed by
the final `.trim()` (both resolutions trim to the same string). -/
def extractFence (cs : List Char) : Option String :=
  match findSeqIdxCI "```htm".data cs with
  | none => none
  | some i =>
    let after := cs.drop (i + 6)
    let capture := match after with
      | c :: rest => if charIEq c 'l' then rest else after
      | [] => []
    match capture with
    | [] => none
    | _ :: tail1 =>
      match findSeqIdx "```".data tail1 with
      | none => none
      | some k => some (strTrim ⟨capture.take (k + 1)⟩)

/-- Doctype branch of `extractHTML`: the regex `/(<!DOCTYPE html[\s\S]+)/i`
(the marker plus at least one further character, to the end). -/
def extractDoctype (cs : List Char) : Option String :=
  match findSeqIdxCI "<!DOCTYPE html".data cs with
  | some i => if i + 14 < cs.length then some (strTrim ⟨cs.drop i⟩) else none
  | none => none

/-- Embeds `extractHTML(content)`. -/
def extractHTML (content : String) : String :=
  match extractFence content.data with
  | some s => s
  | none =>
    match extractDoctype content.data with
    | some s => s
    | none => strTrim content

/-! ## Refinement loop (`generatePage`)

The model endpoint is abstracted as an oracle from a conversation (a list
of role/content pairs) to the returned content — this is the success path
of `callCerebras`; the retry behaviour of a single call is modelled
separately below.  `generatePage` returns the final document together with
the trace of model calls (conversation sent, content received), so call
counts and per-round prompts are observable. -/

/-- One recorded model call: the conversation sent and the raw content
received. -/
structure ModelCall where
  conv : List (String × String)
  response : String

/-- The conversation sent for the initial generation round. -/
def initialConv (a : Analysis) (isExternal : Bool) : List (String × String) :=
  [("system", systemPrompt), ("user", initialPrompt a isExternal)]

/-- The conversation sent for refinement round `i` on working document
`html` (system prompt plus the refinement prompt). -/
def refineConv (a : Analysis) (isExternal : Bool) (iterations i : Nat) (html : String) :
    List (String × String) :=
  [("system", systemPrompt), ("user", refinePrompt a isExternal iterations i html)]

/-- Iterations `2..iterations` of `generatePage` (the refinement `for`
loop), at round `i` with `left` rounds remaining (`left = iterations + 1 - i`,
so the loop condition `i <= iterations` is `0 < left`) and working
document `html`. -/
def refineRounds (oracle : List (String × String) → String) (a : Analysis) (isExternal : Bool)
    (iterations i : Nat) : Nat → String → String × List ModelCall
  | 0, html => (html, [])
  | left + 1, html =>
    let conv := refineConv a isExternal iterations i html
    let resp := oracle conv
    let html' := extractHTML resp
    let (final, rest) := refineRounds oracle a isExternal iterations (i + 1) left html'
    (final, ⟨conv, resp⟩ :: rest)

/-- Embeds `generatePage(apiKey, analysis, isExternal, iterations)`:
iteration 1 generates from the initial prompt, iterations `2..N` refine;
returns the final document and the trace of model calls. -/
def generatePage (oracle : List (String × String) → String) (a : Analysis) (isExternal : Bool)
    (iterations : Nat) : String × List ModelCall :=
  let conv1 := initialConv a isExternal
  let r1 := oracle conv1
  let html := extractHTML r1
  let (final, rest) := refineRounds oracle a isExternal iterations 2 (iterations - 1) html
  (final, ⟨conv1, r1⟩ :: rest)

/-! ## Model client retry (`callCerebras`) -/

/-- Environment outcome of one attempt: either the `fetch`/body machinery
threw (network failure, the 2-minute `AbortSignal.timeout`, a body/JSON
read error), or a response arrived with its `ok` flag, status code, body
text, optional `choices[0].message.content` field, and the tokens/sec
figure the source derives from the usage accounting. -/
inductive AttemptOutcome where
  | throwErr (msg : String)
  | reply (ok : Bool) (status : Nat) (body : String) (content : Option String) (tps : Nat)

/-- One attempt body of `callCerebras`: non-`ok` responses throw
`HTTP <status>: <body slice>`, a missing or empty `content` field throws
`Empty response from API`, otherwise the content is returned. -/
def attemptOnce : AttemptOutcome → Except String (String × Nat)
  | .throwErr m => .error m
  | .reply ok status body content tps =>
    if !ok then .error ("HTTP " ++ toString status ++ ": " ++ strTake 200 body)
    else if (content.getD "") = "" then .error "Empty response from API"
    else .ok (content.getD "", tps)

deriving instance DecidableEq for Except

/-- Observable result of a `callCerebras` run: the returned value or the
error finally thrown, the number of attempts made, and the backoff delays
(in milliseconds, `2000 * attempt`) slept between consecutive attempts. -/
structure CallResult where
  result : Except String (String × Nat)
  attempts : Nat
  delaysMs : List Nat
deriving DecidableEq

/-- The `for (attempt = 1; attempt <= 3; attempt++)` loop of
`callCerebras`, on attempt number `attempt` with `left` attempts remaining
including this one (`left = 4 - attempt`, so the sleep guard
`attempt < 3` is `0 < left` after this attempt): stop on success; on
failure remember the error as `lastErr`, sleep `2000 * attempt` ms if
another attempt remains, and rethrow the last error once the budget is
exhausted. -/
def callLoop (env : Nat → AttemptOutcome) (lastErr : String) (attempt : Nat) :
    Nat → CallResult
  | 0 => { result := .error lastErr, attempts := 0, delaysMs := [] }
  | left + 1 =>
    match attemptOnce (env attempt) with
    | .ok r => { result := .ok r, attempts := 1, delaysMs := [] }
    | .error e =>
      let rest := callLoop env e (attempt + 1) left
      { result := rest.result, attempts := rest.attempts + 1,
        delaysMs := (if 0 < left then [2000 * attempt] else []) ++ rest.delaysMs }

/-- Embeds `callCerebras(apiKey, messages)` over an attempt environment:
the loop starts at attempt 1 with a budget of 3. -/
def callCerebras (env : Nat → AttemptOutcome) : CallResult := callLoop env "" 1 3

/-! ## Manifest store (`readManifest`, `writeManifest`, `upsertManifestEntry`) -/

/-- Embeds a `ManifestEntry` as built in `main`. -/
structure ManifestEntry where
  owner : String
  repo : String
  fullName : String
  path : String
  url : String
  isExternal : Bool
  type : String
  generatedAt : String
deriving DecidableEq

/-- Embeds `upsertManifestEntry(manifest, entry)` on the `generated` list:
replace in place at the first index with the same `fullName`, else
append. -/
def upsertManifestEntry (generated : List ManifestEntry) (entry : ManifestEntry) :
    List ManifestEntry :=
  match generated.findIdx? (fun e => e.fullName = entry.fullName) with
  | some idx => generated.set idx entry
  | none => generated ++ [entry]

/-- Optional string field of a parsed JSON value. -/
def jvalStr (v : Option JVal) : Option String :=
  match v with
  | some (.jstr s) => some s
  | _ => none

/-- Optional boolean field of a parsed JSON value. -/
def jvalBool (v : Option JVal) : Option Bool :=
  match v with
  | some (.jbool b) => some b
  | _ => none

/-- Decode one parsed manifest entry object into the typed model. -/
def decodeEntry (v : JVal) : Option ManifestEntry :=
  match jvalStr (jvalGet v "owner"), jvalStr (jvalGet v "repo"),
      jvalStr (jvalGet v "fullName"), jvalStr (jvalGet v "path"),
      jvalStr (jvalGet v "url"), jvalBool (jvalGet v "isExternal"),
      jvalStr (jvalGet v "type"), jvalStr (jvalGet v "generatedAt") with
  | some o, some r, some f, some p, some u, some x, some t, some g =>
    some ⟨o, r, f, p, u, x, t, g⟩
  | _, _, _, _, _, _, _, _ => none

/-- Decode a parsed manifest document into its `generated` entry list. -/
def decodeManifest (v : JVal) : List ManifestEntry :=
  match jvalGet v "generated" with
  | some (.jarr es) => es.filterMap decodeEntry
  | _ => []

/-- Embeds `readManifest()` over the persisted file content (`none` models
a missing/unreadable file, whose `readFileSync` throw is caught): a missing
or unparseable file yields the empty manifest `{generated: []}` — the
empty entry list here.  (The source returns the parsed value untyped; we
decode it into the typed entry list, which is the identity on manifests
the generator itself writes.) -/
def readManifest (disk : Option String) : List ManifestEntry :=
  match disk with
  | none => []
  | some s =>
    match jsonParse s with
    | none => []
    | some v => decodeManifest v

/-! ## CLI argument parsing (`parseArgs`) -/

structure ParsedArgs where
  repos : List String
  noPush : Bool
  noClone : Bool
  iterations : Int

/-- The `--iterations N` value: `parseInt(argv[++i], 10) || 3` (`NaN` and
`0` are falsy and fall back to 3). -/
def jsIterVal (v : String) : Int :=
  match jsParseInt v with
  | none => 3
  | some n => if n = 0 then 3 else n

/-- Loop of `parseArgs` over the remaining argv tokens. -/
def parseArgsGo : List String → ParsedArgs → ParsedArgs
  | [], acc => acc
  | a :: rest, acc =>
    if a = "--no-push" then parseArgsGo rest { acc with noPush := true }
    else if a = "--no-clone" then parseArgsGo rest { acc with noClone := true }
    else if a = "--iterations" then
      match rest with
      | [] => { acc with iterations := 3 }
      | v :: rest' => parseArgsGo rest' { acc with iterations := jsIterVal v }
    else if strStartsWith a "--" then parseArgsGo rest acc
    else if strHasChar a '/' then parseArgsGo rest { acc with repos := acc.repos ++ [a] }
    else parseArgsGo rest acc

/-- Embeds `parseArgs(argv)` (defaults: no flags, 3 iterations). -/
def parseArgs (argv : List String) : ParsedArgs :=
  parseArgsGo argv { repos := [], noPush := false, noClone := false, iterations := 3 }

/-! ## Generation orchestrator (`main`)

Per-repository side effects are abstracted into a `RefEnv` assigned to
each `owner/repo` token: whether the clone/refresh/re-clone sequence
ultimately produced a checkout, the checkout's contents, the outcome of
`generatePage` (`none` models the thrown, caught error after the model
client exhausts its retries), and the timestamp taken for the manifest
entry.  The git push step only logs on failure and is not part of any
observable below. -/

structure RefEnv where
  cloneOk : Bool
  checkout : List FsNode
  genOutcome : Option String
  generatedAt : String

/-- The format check at the top of the `main` loop:
`parts.length !== 2 || !parts[0] || !parts[1]` rejects. -/
def validRefFormat (fullName : String) : Bool :=
  match jsSplit '/' fullName with
  | [a, b] => !a.data.isEmpty && !b.data.isEmpty
  | _ => false

/-- The `isExternal` computation:
`homeUser && owner.toLowerCase() !== homeUser.toLowerCase()`, coerced with
`Boolean(...)`. -/
def refIsExternal (homeUser : Option String) (owner : String) : Bool :=
  match homeUser with
  | some h => strLower owner != strLower h
  | none => false

/-- The manifest entry `main` builds for a successful repository. -/
def mkEntry (homeUser : Option String) (fullName owner repo type genAt : String) :
    ManifestEntry :=
  { owner := owner
    repo := repo
    fullName := fullName
    path := "repos/" ++ repo ++ "/index.html"
    url := "repos/" ++ repo ++ "/"
    isExternal := refIsExternal homeUser owner
    type := type
    generatedAt := genAt }

/-- One iteration of the `for (const fullName of repoArgs)` loop in `main`,
threading the in-memory manifest and the `generated` list: an invalid
format, a failed clone, or a failed generation leaves the state unchanged
(`continue`); a success writes the page, upserts the manifest entry and
appends to `generated`. -/
def processRef (homeUser : Option String) (env : String → RefEnv)
    (st : List ManifestEntry × List ManifestEntry) (fullName : String) :
    List ManifestEntry × List ManifestEntry :=
  if !validRefFormat fullName then st
  else
    let parts := jsSplit '/' fullName
    let owner := parts.headD ""
    let repo := (parts.drop 1).headD ""
    let e := env fullName
    if !e.cloneOk then st
    else
      match e.genOutcome with
      | none => st
      | some _html =>
        let entry := mkEntry homeUser fullName owner repo
          (analyzeRepo e.checkout owner repo).type e.generatedAt
        (upsertManifestEntry st.1 entry, st.2 ++ [entry])

/-- The success entry one token contributes, independent of every other
token: `none` when the token is skipped (bad format, clone failure,
generation failure). -/
def refSuccessEntry (homeUser : Option String) (env : String → RefEnv)
    (fullName : String) : Option ManifestEntry :=
  if !validRefFormat fullName then none
  else
    let parts := jsSplit '/' fullName
    let owner := parts.headD ""
    let repo := (parts.drop 1).headD ""
    let e := env fullName
    if !e.cloneOk then none
    else
      match e.genOutcome with
      | none => none
      | some _html =>
        some (mkEntry homeUser fullName owner repo
          (analyzeRepo e.checkout owner repo).type e.generatedAt)

/-- Observable outcome of a `main` run: the successful entries in order,
the manifest value written (if the single post-loop write happened), the
number of manifest writes, and whether the process exited with an error
status. -/
structure MainResult where
  generated : List ManifestEntry
  writtenManifest : Option (List ManifestEntry)
  manifestWrites : Nat
  exitError : Bool

def MAX_REPOS : Nat := 5

/-- Embeds `main()`: parse argv; exit 1 on an empty repo list, on more than
`MAX_REPOS` repos, or on a falsy API key; otherwise read the manifest, run
the per-repository loop, and exit 1 if nothing succeeded — else write the
manifest exactly once.  (The trailing best-effort git push only logs and
never changes the exit status.) -/
def mainRun (apiKey : Option String) (homeUser : Option String) (disk : Option String)
    (env : String → RefEnv) (argv : List String) : MainResult :=
  let pa := parseArgs argv
  if pa.repos.isEmpty then
    { generated := [], writtenManifest := none, manifestWrites := 0, exitError := true }
  else if MAX_REPOS < pa.repos.length then
    { generated := [], writtenManifest := none, manifestWrites := 0, exitError := true }
  else if (apiKey.getD "") = "" then
    { generated := [], writtenManifest := none, manifestWrites := 0, exitError := true }
  else
    let manifest0 := readManifest disk
    let (finalManifest, generated) := pa.repos.foldl (processRef homeUser env) (manifest0, [])
    if generated.isEmpty then
      { generated := [], writtenManifest := none, manifestWrites := 0, exitError := true }
    else
      { generated := generated, writtenManifest := some finalManifest,
        manifestWrites := 1, exitError := false }

/-! ## Job store and polling protocol (`server.js`)

A job is mutated by the handlers attached to the spawned child process:
`stdout`/`stderr` data chunks append log lines, the `close` event sets the
terminal status from the exit code, the `error` (spawn failure) event sets
the `error` status.  A trace of these events is the abstraction of one
background process run; `validTrace` captures the orderings Node's
`child_process` can deliver (data chunks, then at most one terminal pair:
either `close`, or `error`, or `error` followed by a `close` whose code is
not 0 — a process that failed to spawn cannot also exit 0). -/

inductive JobStatus where
  | running
  | success
  | error
deriving DecidableEq

structure LogLine where
  kind : String
  message : String
  ts : Nat
deriving DecidableEq

structure Job where
  id : String
  status : JobStatus
  logs : List LogLine
  startedAt : Nat
  finishedAt : Option Nat
deriving DecidableEq

/-- Embeds the job literal of `POST /api/generate`. -/
def newJob (id : String) (now : Nat) : Job :=
  { id := id, status := .running, logs := [], startedAt := now, finishedAt := none }

/-- Embeds the request validation of `POST /api/generate`: a missing or
empty or over-limit `repos` body is a client error (`none`); otherwise the
store gains a fresh `running` job and the response carries its id. -/
def postGenerate (reposBody : Option (List String)) (newId : String) (now : Nat) :
    Option Job :=
  match reposBody with
  | none => none
  | some rs =>
    if rs.isEmpty then none
    else if 5 < rs.length then none
    else some (newJob newId now)

/-- A data chunk's log lines:
`data.toString().split('\n').filter(l => l.trim())`. -/
def chunkLines (s : String) : List String :=
  (jsSplit '\n' s).filter (fun l => !(strTrim l).data.isEmpty)

/-- JS template rendering of the nullable exit code (`null` prints as
`"null"`). -/
def codeText : Option Int → String
  | some n => toString n
  | none => "null"

/-- JS template rendering of the nullable signal. -/
def signalText : Option String → String
  | some s => s
  | none => "null"

inductive JobEvent where
  | stdoutData (s : String) (ts : Nat)
  | stderrData (s : String) (ts : Nat)
  | closeEv (code : Option Int) (signal : Option String) (ts : Nat)
  | errorEv (msg : String) (ts : Nat)
deriving DecidableEq

/-- Embeds the four handlers wired up in `POST /api/generate`. -/
def jobStep (j : Job) : JobEvent → Job
  | .stdoutData s ts =>
    { j with logs := j.logs ++ (chunkLines s).map (fun l => ⟨"stdout", l, ts⟩) }
  | .stderrData s ts =>
    { j with logs := j.logs ++ (chunkLines s).map (fun l => ⟨"stderr", l, ts⟩) }
  | .closeEv code signal ts =>
    if code = some 0 then
      { j with
        status := .success
        logs := j.logs ++ [⟨"success", "Generation completed successfully!", ts⟩]
        finishedAt := some ts }
    else
      { j with
        status := .error
        logs := j.logs ++ [⟨"error", "Generation failed (exit code " ++ codeText code ++
          ", signal " ++ signalText signal ++ ")", ts⟩]
        finishedAt := some ts }
  | .errorEv msg ts =>
    { j with
      status := .error
      logs := j.logs ++ [⟨"error", "Failed to start: " ++ msg, ts⟩]
      finishedAt := some ts }

/-- Run a job through a trace of events. -/
def runJob (j : Job) (es : List JobEvent) : Job := es.foldl jobStep j

def JobEvent.isData : JobEvent → Bool
  | .stdoutData _ _ => true
  | .stderrData _ _ => true
  | _ => false

/-- The terminal segment shapes Node can deliver for one child process. -/
def terminalPart (ts : List JobEvent) : Prop :=
  ts = [] ∨
  (∃ c s t, ts = [.closeEv c s t]) ∨
  (∃ m t, ts = [.errorEv m t]) ∨
  (∃ m t c s t', ts = [.errorEv m t, .closeEv c s t'] ∧ c ≠ some 0)

/-- Event traces one child process can produce: data chunks followed by a
terminal segment. -/
def validTrace (es : List JobEvent) : Prop :=
  ∃ ds ts, es = ds ++ ts ∧ (∀ e ∈ ds, e.isData = true) ∧ terminalPart ts

/-- JS `Array.prototype.slice(begin)` with a possibly negative, possibly
out-of-range numeric argument. -/
def jsSliceFrom (l : List LogLine) (i : Int) : List LogLine :=
  if i < 0 then l.drop (max (l.length + i) 0).toNat
  else l.drop i.toNat

structure PollOk where
  id : String
  status : JobStatus
  logs : List LogLine
  totalLogs : Nat
  startedAt : Nat
  finishedAt : Option Nat
deriving DecidableEq

inductive PollResponse where
  | notFound
  | ok (p : PollOk)
deriving DecidableEq

/-- The cursor extraction `parseInt(req.query.since) || 0` (an absent
parameter or `NaN` or `0` all give `0`). -/
def sinceVal (since : Option String) : Int :=
  match since with
  | none => 0
  | some q =>
    match jsParseInt q with
    | none => 0
    | some n => if n = 0 then 0 else n

/-- Embeds `GET /api/jobs/:id` over the store (an association list from
job id, modelling the `jobs` map) and the raw `since` query parameter:
unknown ids answer 404; otherwise `since` is `parseInt(...) || 0` and the
response carries `logs.slice(since)` plus the total count. -/
def getJobRoute (jobs : List (String × Job)) (id : String) (since : Option String) :
    PollResponse :=
  match (jobs.find? (fun p => p.1 = id)).map (·.2) with
  | none => .notFound
  | some job =>
    .ok ⟨job.id, job.status, jsSliceFrom job.logs (sinceVal since), job.logs.length,
      job.startedAt, job.finishedAt⟩

/-! ## Derived notions used by the statements below -/

/-- Occurrence of `m` as a contiguous substring of `s`. -/
def occursIn (m s : String) : Prop := m.data <:+: s.data

/-- The classifier's rule chain as explicit ordered data: each rule is a
predicate over the checkout paired with its label, in the exact source
order — notebook/ML-manifest (`ml`), workspace conventions (`monorepo`),
Terraform files and the container-file compound rule (`infra`), front-end
frameworks (`frontend`), server frameworks (`api`), CLI conventions
(`cli`), library entry points (`library`). -/
def classifierRules : List ((List FsNode → Bool) × String) :=
  [(fun r => findFile (fun n _ => strEndsWith n ".ipynb") 2 0 r, "ml"),
   (fun r => pkgMatches r mlPat, "ml"),
   (fun r => hasFsFile r "lerna.json" || hasFsFile r "turbo.json" ||
     hasFsFile r "pnpm-workspace.yaml" || hasFsDir r "packages" || hasFsDir r "apps",
    "monorepo"),
   (fun r => findFile (fun n _ => strEndsWith n ".tf") 2 0 r, "infra"),
   (fun r => (hasFsFile r "Dockerfile" || hasFsFile r "docker-compose.yml" ||
       hasFsFile r "docker-compose.yaml" || hasFsDir r "k8s" ||
       hasFsDir r "kubernetes" ||
       (hasFsDir r ".github/workflows" && !pkgMatches r workflowGuardPat)) &&
     (hasFsFile r "Dockerfile" || hasFsFile r "docker-compose.yml"), "infra"),
   (fun r => pkgMatches r frontendPat, "frontend"),
   (fun r => pkgMatches r apiPat, "api"),
   (fun r => hasFsDir r "bin" || pkgMatches r cliPat, "cli"),
   (fun r => pkgJsonLib r, "library"),
   (fun r => cargoLib r, "library")]

/-- First-match-wins evaluation of an ordered rule list, defaulting to
`generic`. -/
def firstMatch : List ((List FsNode → Bool) × String) → List FsNode → String
  | [], _ => "generic"
  | rule :: rest, r => if rule.1 r then rule.2 else firstMatch rest r

/-- The refinement-call protocol from round `i` on working document `doc`:
each successive recorded call sends exactly the system prompt plus the
refinement prompt for the document extracted from the previous response. -/
def RefineChain (a : Analysis) (isExternal : Bool) (iterations : Nat) :
    Nat → String → List ModelCall → Prop
  | _, _, [] => True
  | i, doc, c :: rest =>
    c.conv = refineConv a isExternal iterations i doc ∧
    RefineChain a isExternal iterations (i + 1) (extractHTML c.response) rest


/-! ## Concrete fixtures used by the closed statements below -/

def retryEnvA : Nat → AttemptOutcome
  | 1 => .throwErr "network down"
  | 2 => .reply false 500 "server exploded" none 0
  | _ => .reply true 200 "" (some "<p>doc</p>") 42

def pollJobA : Job :=
  { id := "j1", status := .running,
    logs := [⟨"stdout", "l1", 0⟩, ⟨"stdout", "l2", 1⟩, ⟨"stdout", "l3", 2⟩],
    startedAt := 0, finishedAt := none }

def c10Env : String → RefEnv := fun _ => ⟨true, [], some "<p>x</p>", "2024-01-01T00:00:00.000Z"⟩

/-- Recursive form of `upsertManifestEntry` (first occurrence replaced in
place, else appended), used to reason about the `findIdx?`/`set`
implementation by structural induction. -/
def upsertRec (e : ManifestEntry) : List ManifestEntry → List ManifestEntry
  | [] => [e]
  | g :: rest => if g.fullName = e.fullName then e :: rest else g :: upsertRec e rest

def jobTraceData : List JobEvent := [.stdoutData "hello\nworld" 5]

def jobTraceTerm : List JobEvent := [.closeEv (some 0) none 9]

/-- A checkout whose only notebook sits three directory levels deep —
outside the classifier's depth-2 `findFile` search — next to a root
`Dockerfile`. -/
def deepNotebookFs : List FsNode :=
  [.dir "a" [.dir "b" [.dir "c" [.file "n.ipynb" "nb"]]],
   .file "Dockerfile" "FROM scratch"]

/-- A checkout with a top-level notebook and a `Dockerfile`. -/
def notebookDockerFs : List FsNode :=
  [.file "train.ipynb" "nb", .file "Dockerfile" "FROM node"]

def refEnvIdle : String → RefEnv := fun _ => ⟨false, [], none, ""⟩

/-- Batch environment with three references where the second one fails to
clone. -/
def batchEnvA : String → RefEnv := fun fn =>
  if fn = "a/one" then ⟨true, [], some "<p>1</p>", "T1"⟩
  else if fn = "b/two" then ⟨false, [], none, "T2"⟩
  else ⟨true, [], some "<p>3</p>", "T3"⟩

/-! ## Helper lemmas -/

theorem occursIn_self (m : String) : occursIn m m :=
  ⟨[], [], by simp⟩

theorem occursIn_left (u : String) {m s : String} (h : occursIn m s) : occursIn m (u ++ s) := by
  obtain ⟨p, q, hpq⟩ := h
  exact ⟨u.data ++ p, q, by rw [String.data_append, ← hpq]; simp [List.append_assoc]⟩

theorem occursIn_right (u : String) {m s : String} (h : occursIn m s) : occursIn m (s ++ u) := by
  obtain ⟨p, q, hpq⟩ := h
  exact ⟨p, q ++ u.data, by rw [String.data_append, ← hpq]; simp [List.append_assoc]⟩

theorem occursIn_mid (x m y : String) : occursIn m ((x ++ m) ++ y) :=
  occursIn_right y (occursIn_left x (occursIn_self m))

/-! ## C2 — model client retry policy -/

/-- Claim C2: the model client makes at most 3 attempts per call; two
failing attempts followed by one succeeding attempt return success; three
consecutive failures raise the last attempt's error verbatim; the delay
slept between attempt `k` and attempt `k+1` is `2000 * k` milliseconds
(`k × 2` seconds); and a non-success HTTP status, a missing content field,
and an empty content field each count as a retryable failure. -/
theorem callCerebras_retry_policy :
    (∀ env : Nat → AttemptOutcome, (callCerebras env).attempts ≤ 3) ∧
    (∀ env : Nat → AttemptOutcome,
      (callCerebras env).delaysMs =
        (List.range ((callCerebras env).attempts - 1)).map (fun k => 2000 * (k + 1))) ∧
    (∀ (env : Nat → AttemptOutcome) (e1 e2 : String) (r : String × Nat),
      attemptOnce (env 1) = .error e1 → attemptOnce (env 2) = .error e2 →
      attemptOnce (env 3) = .ok r →
      callCerebras env = ⟨.ok r, 3, [2000 * 1, 2000 * 2]⟩) ∧
    (∀ (env : Nat → AttemptOutcome) (e1 e2 e3 : String),
      attemptOnce (env 1) = .error e1 → attemptOnce (env 2) = .error e2 →
      attemptOnce (env 3) = .error e3 →
      callCerebras env = ⟨.error e3, 3, [2000 * 1, 2000 * 2]⟩) ∧
    (∀ status body content tps,
      ∃ e, attemptOnce (.reply false status body content tps) = .error e) ∧
    (∀ ok status body tps, ∃ e, attemptOnce (.reply ok status body none tps) = .error e) ∧
    (∀ ok status body tps, ∃ e, attemptOnce (.reply ok status body (some "") tps) = .error e) := by
  refine ⟨?_, ?_, ?_, ?_, ?_, ?_, ?_⟩
  · intro env
    rcases h1 : attemptOnce (env 1) with e1 | r1 <;>
      rcases h2 : attemptOnce (env 2) with e2 | r2 <;>
      rcases h3 : attemptOnce (env 3) with e3 | r3 <;>
      simp [callCerebras, callLoop, h1, h2, h3]
  · intro env
    rcases h1 : attemptOnce (env 1) with e1 | r1 <;>
      rcases h2 : attemptOnce (env 2) with e2 | r2 <;>
      rcases h3 : attemptOnce (env 3) with e3 | r3 <;>
      simp [callCerebras, callLoop, h1, h2, h3, List.range_succ]
  · intro env e1 e2 r h1 h2 h3
    simp [callCerebras, callLoop, h1, h2, h3]
  · intro env e1 e2 e3 h1 h2 h3
    simp [callCerebras, callLoop, h1, h2, h3]
  · intro status body content tps
    exact ⟨_, rfl⟩
  · intro ok status body tps
    rcases ok with _ | _ <;> exact ⟨_, rfl⟩
  · intro ok status body tps
    rcases ok with _ | _ <;> exact ⟨_, rfl⟩

/-- Witness for C2 at a concrete environment: attempt 1 throws, attempt 2
is a non-success status, attempt 3 succeeds — three attempts, delays of
2000 ms then 4000 ms, success result. -/
theorem callCerebras_retry_policy_witness :
    attemptOnce (retryEnvA 1) = .error "network down" ∧
    callCerebras retryEnvA = ⟨.ok ("<p>doc</p>", 42), 3, [2000 * 1, 2000 * 2]⟩ :=
  ⟨rfl, callCerebras_retry_policy.2.2.1 retryEnvA "network down"
    "HTTP 500: server exploded" ("<p>doc</p>", 42) rfl rfl rfl⟩

/-! ## C6 — polling protocol -/

/-- Claim C6: polling a job with cursor `k` (for `0 ≤ k ≤ m` where `m` is
the total number of log lines) returns exactly the last `m − k` log lines
(the `drop k` suffix) and reports `totalLogs = m`; polling an unknown job
identifier returns a not-found error. -/
theorem getJobRoute_poll_spec :
    (∀ (jobs : List (String × Job)) (id : String) (q : Option String) (job : Job) (k : Nat),
      (jobs.find? (fun p => p.1 = id)).map (·.2) = some job →
      sinceVal q = (k : Int) →
      k ≤ job.logs.length →
      getJobRoute jobs id q =
        .ok ⟨job.id, job.status, job.logs.drop k, job.logs.length,
          job.startedAt, job.finishedAt⟩ ∧
      (job.logs.drop k).length = job.logs.length - k ∧
      job.logs.drop k <:+ job.logs) ∧
    (∀ (jobs : List (String × Job)) (id : String) (q : Option String),
      (jobs.find? (fun p => p.1 = id)).map (·.2) = none →
      getJobRoute jobs id q = .notFound) := by
  constructor
  · intro jobs id q job k hfind hq _hk
    have hslice : jsSliceFrom job.logs (k : Int) = job.logs.drop k := by
      unfold jsSliceFrom
      simp
    refine ⟨?_, List.length_drop k job.logs, List.drop_suffix k job.logs⟩
    unfold getJobRoute
    rw [hfind, hq]
    simp [hslice]
  · intro jobs id q hfind
    unfold getJobRoute
    rw [hfind]

/-- Witness for C6 at a concrete store: `since=1` on a 3-line job returns
the last 2 lines with `totalLogs = 3`, and an unknown id is not found. -/
theorem getJobRoute_poll_spec_witness :
    getJobRoute [("j1", pollJobA)] "j1" (some "1") =
      .ok ⟨"j1", .running, [⟨"stdout", "l2", 1⟩, ⟨"stdout", "l3", 2⟩], 3, 0, none⟩ ∧
    getJobRoute [("j1", pollJobA)] "nope" none = .notFound :=
  ⟨by
    have h := (getJobRoute_poll_spec.1 [("j1", pollJobA)] "j1" (some "1") pollJobA 1
      (by decide) (by decide) (by decide)).1
    rw [h]; decide,
   getJobRoute_poll_spec.2 [("j1", pollJobA)] "nope" none (by decide)⟩

/-! ## C10 — manifest read fallback -/

/-- Claim C10: a missing or unparseable persisted manifest makes
`readManifest` silently return the empty manifest (`{generated: []}`), so
a run starting from an unreadable manifest behaves exactly as one starting
from a missing manifest — its single post-loop write replaces whatever the
unreadable file previously held. -/
theorem readManifest_fallback_spec :
    (readManifest none = []) ∧
    (∀ s, jsonParse s = none → readManifest (some s) = []) ∧
    (∀ apiKey homeUser env argv s, jsonParse s = none →
      mainRun apiKey homeUser (some s) env argv = mainRun apiKey homeUser none env argv) := by
  refine ⟨rfl, ?_, ?_⟩
  · intro s h
    simp [readManifest, h]
  · intro apiKey homeUser env argv s h
    unfold mainRun
    rw [show readManifest (some s) = readManifest none by simp [readManifest, h]]

/-- Witness for C10 at a concrete unparseable manifest text. -/
theorem readManifest_fallback_spec_witness :
    readManifest (some "not json") = [] ∧
    mainRun (some "key") none (some "not json") c10Env ["a/b"] =
      mainRun (some "key") none none c10Env ["a/b"] :=
  ⟨readManifest_fallback_spec.2.1 "not json" rfl,
   readManifest_fallback_spec.2.2 (some "key") none c10Env ["a/b"] "not json" rfl⟩

/-! ## C8 — manifest upsert invariant -/

theorem upsert_eq_upsertRec (m : List ManifestEntry) (e : ManifestEntry) :
    upsertManifestEntry m e = upsertRec e m := by
  induction m with
  | nil => rfl
  | cons g rest ih =>
    unfold upsertManifestEntry at ih ⊢
    unfold upsertRec
    rw [List.findIdx?_cons]
    by_cases hg : g.fullName = e.fullName
    · simp [hg]
    · rw [if_neg (by simpa using hg), List.findIdx?_succ]
      cases hf : rest.findIdx? (fun e' => e'.fullName = e.fullName) with
      | none =>
        rw [hf] at ih
        simp only [hf, Option.map_none', List.cons_append, if_neg hg]
        rw [← ih]
      | some i =>
        rw [hf] at ih
        simp only [hf, Option.map_some', List.set_cons_succ, if_neg hg]
        rw [← ih]

theorem mem_upsertRec {x e : ManifestEntry} : ∀ {m : List ManifestEntry},
    x ∈ upsertRec e m → x = e ∨ x ∈ m := by
  intro m
  induction m with
  | nil => simp [upsertRec]
  | cons g rest ih =>
    unfold upsertRec
    by_cases hg : g.fullName = e.fullName
    · simp only [if_pos hg, List.mem_cons]
      rintro (rfl | hx)
      · exact Or.inl rfl
      · exact Or.inr (Or.inr hx)
    · simp only [if_neg hg, List.mem_cons]
      rintro (rfl | hx)
      · exact Or.inr (Or.inl rfl)
      · rcases ih hx with h | h
        · exact Or.inl h
        · exact Or.inr (Or.inr h)

theorem upsertRec_nodup (e : ManifestEntry) : ∀ (m : List ManifestEntry),
    (m.map ManifestEntry.fullName).Nodup →
    ((upsertRec e m).map ManifestEntry.fullName).Nodup := by
  intro m
  induction m with
  | nil => simp [upsertRec]
  | cons g rest ih =>
    intro h
    rw [List.map_cons, List.nodup_cons] at h
    unfold upsertRec
    by_cases hg : g.fullName = e.fullName
    · rw [if_pos hg, List.map_cons, List.nodup_cons]
      exact ⟨hg ▸ h.1, h.2⟩
    · rw [if_neg hg, List.map_cons, List.nodup_cons]
      refine ⟨?_, ih h.2⟩
      intro hmem
      rw [List.mem_map] at hmem
      obtain ⟨y, hy, hyname⟩ := hmem
      rcases mem_upsertRec hy with rfl | hy'
      · exact hg hyname.symm
      · exact h.1 (List.mem_map.mpr ⟨y, hy', hyname⟩)

theorem upsertRec_filter (e : ManifestEntry) : ∀ (m : List ManifestEntry),
    (m.map ManifestEntry.fullName).Nodup →
    (upsertRec e m).filter (fun g => g.fullName == e.fullName) = [e] := by
  intro m
  induction m with
  | nil => simp [upsertRec]
  | cons g rest ih =>
    intro h
    rw [List.map_cons, List.nodup_cons] at h
    unfold upsertRec
    by_cases hg : g.fullName = e.fullName
    · rw [if_pos hg, List.filter_cons_of_pos (by simp)]
      have hrest : rest.filter (fun g => g.fullName == e.fullName) = [] := by
        rw [List.filter_eq_nil_iff]
        intro x hx
        simp only [beq_iff_eq]
        intro hxe
        exact h.1 (List.mem_map.mpr ⟨x, hx, by rw [hxe, hg]⟩)
      rw [hrest]
    · rw [if_neg hg, List.filter_cons_of_neg (by simpa using hg)]
      exact ih h.2

theorem upsertRec_getElem_ne (e : ManifestEntry) : ∀ (m : List ManifestEntry) (i : Nat)
    (hi : i < m.length), m[i].fullName ≠ e.fullName →
    (upsertRec e m)[i]? = m[i]? := by
  intro m
  induction m with
  | nil => intro i hi; simp at hi
  | cons g rest ih =>
    intro i hi hne
    unfold upsertRec
    by_cases hg : g.fullName = e.fullName
    · rw [if_pos hg]
      cases i with
      | zero => exact absurd hg (by simpa using hne)
      | succ j => simp
    · rw [if_neg hg]
      cases i with
      | zero => simp
      | succ j =>
        simp only [List.getElem?_cons_succ]
        exact ih j (by simpa using hi) (by simpa using hne)

/-- Claim C8: upserting preserves at-most-one-entry-per-`fullName`
(no-duplicate invariant on the mapped names); upserting the same
`fullName` twice leaves exactly one entry for it — the later one, carrying
the later `generatedAt`; and every entry with a different `fullName` keeps
its position. -/
theorem upsert_manifest_invariant :
    (∀ (m : List ManifestEntry) (e : ManifestEntry),
      (m.map ManifestEntry.fullName).Nodup →
      ((upsertManifestEntry m e).map ManifestEntry.fullName).Nodup) ∧
    (∀ (m : List ManifestEntry) (e e' : ManifestEntry),
      (m.map ManifestEntry.fullName).Nodup → e.fullName = e'.fullName →
      (upsertManifestEntry (upsertManifestEntry m e) e').filter
        (fun g => g.fullName == e'.fullName) = [e']) ∧
    (∀ (m : List ManifestEntry) (e : ManifestEntry) (i : Nat) (hi : i < m.length),
      m[i].fullName ≠ e.fullName →
      (upsertManifestEntry m e)[i]? = m[i]?) := by
  refine ⟨?_, ?_, ?_⟩
  · intro m e h
    rw [upsert_eq_upsertRec]
    exact upsertRec_nodup e m h
  · intro m e e' h _he
    rw [upsert_eq_upsertRec, upsert_eq_upsertRec]
    exact upsertRec_filter e' (upsertRec e m) (upsertRec_nodup e m h)
  · intro m e i hi hne
    rw [upsert_eq_upsertRec]
    exact upsertRec_getElem_ne e m i hi hne

def manifestEntryA : ManifestEntry :=
  ⟨"b", "s", "b/s", "repos/s/index.html", "repos/s/", false, "ml", "t0"⟩

def manifestEntryB : ManifestEntry :=
  ⟨"a", "r", "a/r", "repos/r/index.html", "repos/r/", false, "generic", "t1"⟩

def manifestEntryB' : ManifestEntry :=
  ⟨"a", "r", "a/r", "repos/r/index.html", "repos/r/", false, "generic", "t2"⟩

/-- Witness for C8 at a concrete manifest: upserting `a/r` twice leaves
exactly one `a/r` entry carrying the later `generatedAt`, and the `b/s`
entry keeps position 0. -/
theorem upsert_manifest_invariant_witness :
    (upsertManifestEntry (upsertManifestEntry [manifestEntryA] manifestEntryB)
        manifestEntryB').filter (fun g => g.fullName == manifestEntryB'.fullName) =
      [manifestEntryB'] ∧
    (upsertManifestEntry [manifestEntryA] manifestEntryB)[0]? = some manifestEntryA :=
  ⟨upsert_manifest_invariant.2.1 [manifestEntryA] manifestEntryB manifestEntryB'
      (by decide) (by decide),
   upsert_manifest_invariant.2.2 [manifestEntryA] manifestEntryB 0 (by decide)
      (by decide) ▸ (by decide)⟩

/-! ## C3 — job lifecycle -/

theorem jobStep_logs_grow (j : Job) (e : JobEvent) : j.logs <+: (jobStep j e).logs := by
  cases e with
  | stdoutData s ts => exact ⟨_, rfl⟩
  | stderrData s ts => exact ⟨_, rfl⟩
  | closeEv code signal ts =>
    simp only [jobStep]
    split
    · exact ⟨_, rfl⟩
    · exact ⟨_, rfl⟩
  | errorEv msg ts => exact ⟨_, rfl⟩

theorem runJob_logs_grow (j : Job) (es : List JobEvent) : j.logs <+: (runJob j es).logs := by
  induction es generalizing j with
  | nil => exact List.prefix_refl _
  | cons e es ih =>
    exact List.IsPrefix.trans (jobStep_logs_grow j e) (ih (jobStep j e))

theorem jobStep_data_status (j : Job) (e : JobEvent) (h : e.isData = true) :
    (jobStep j e).status = j.status := by
  cases e <;> simp [JobEvent.isData] at h ⊢ <;> rfl

theorem runJob_data_status (j : Job) (ds : List JobEvent)
    (h : ∀ e ∈ ds, e.isData = true) : (runJob j ds).status = j.status := by
  induction ds generalizing j with
  | nil => rfl
  | cons e es ih =>
    calc (runJob j (e :: es)).status
        = (runJob (jobStep j e) es).status := rfl
      _ = (jobStep j e).status :=
          ih (jobStep j e) (fun x hx => h x (List.mem_cons_of_mem e hx))
      _ = j.status := jobStep_data_status j e (h e (List.mem_cons_self e es))

theorem jobStep_close_status (j : Job) (c : Option Int) (sg : Option String) (t : Nat) :
    (jobStep j (.closeEv c sg t)).status =
      (if c = some 0 then JobStatus.success else JobStatus.error) := by
  simp only [jobStep]
  split <;> rfl

theorem jobStep_errorEv_status (j : Job) (m : String) (t : Nat) :
    (jobStep j (.errorEv m t)).status = JobStatus.error := rfl

/-- Claim C3: a job is created with status `running` and empty logs; its
log list only ever grows under every handler; data events never change the
status; a trace of data events alone leaves the job `running`; and on a
valid trace with a terminal segment, the status becomes `success` or
`error` at the first terminal event and equals that value at the end of
the trace — it transitions exactly once and never reverts. -/
theorem job_store_lifecycle :
    (∀ id now, (newJob id now).status = JobStatus.running ∧ (newJob id now).logs = []) ∧
    (∀ (j : Job) (e : JobEvent), j.logs <+: (jobStep j e).logs) ∧
    (∀ (j : Job) (es : List JobEvent), j.logs <+: (runJob j es).logs) ∧
    (∀ id now ds, (∀ e ∈ ds, JobEvent.isData e = true) →
      (runJob (newJob id now) ds).status = JobStatus.running) ∧
    (∀ id now es ds ts, es = ds ++ ts → (∀ e ∈ ds, JobEvent.isData e = true) →
      terminalPart ts → ts ≠ [] →
      (runJob (newJob id now) es).status ≠ JobStatus.running ∧
      (runJob (newJob id now) es).status =
        (runJob (newJob id now) (ds ++ ts.take 1)).status) := by
  refine ⟨fun id now => ⟨rfl, rfl⟩, jobStep_logs_grow, runJob_logs_grow, ?_, ?_⟩
  · intro id now ds h
    exact runJob_data_status (newJob id now) ds h
  · intro id now es ds ts hes hds hterm hne
    subst hes
    have hbase : (runJob (newJob id now) ds).status = JobStatus.running :=
      runJob_data_status (newJob id now) ds hds
    rcases hterm with rfl | ⟨c, sg, t, rfl⟩ | ⟨m, t, rfl⟩ | ⟨m, t, c, sg, t', rfl, hc⟩
    · exact absurd rfl hne
    · have hsplit : runJob (newJob id now) (ds ++ [JobEvent.closeEv c sg t]) =
          jobStep (runJob (newJob id now) ds) (JobEvent.closeEv c sg t) := by
        unfold runJob
        rw [List.foldl_append]
        rfl
      refine ⟨?_, rfl⟩
      rw [hsplit, jobStep_close_status]
      split <;> simp
    · have hsplit : runJob (newJob id now) (ds ++ [JobEvent.errorEv m t]) =
          jobStep (runJob (newJob id now) ds) (JobEvent.errorEv m t) := by
        unfold runJob
        rw [List.foldl_append]
        rfl
      refine ⟨?_, rfl⟩
      rw [hsplit, jobStep_errorEv_status]
      simp
    · have hsplit : runJob (newJob id now)
          (ds ++ [JobEvent.errorEv m t, JobEvent.closeEv c sg t']) =
          jobStep (jobStep (runJob (newJob id now) ds) (JobEvent.errorEv m t))
            (JobEvent.closeEv c sg t') := by
        unfold runJob
        rw [List.foldl_append]
        rfl
      have hsplit1 : runJob (newJob id now) (ds ++ [JobEvent.errorEv m t]) =
          jobStep (runJob (newJob id now) ds) (JobEvent.errorEv m t) := by
        unfold runJob
        rw [List.foldl_append]
        rfl
      have htake : ([JobEvent.errorEv m t, JobEvent.closeEv c sg t'] : List JobEvent).take 1 =
          [JobEvent.errorEv m t] := rfl
      constructor
      · rw [hsplit, jobStep_close_status]
        split <;> simp
      · rw [htake, hsplit, hsplit1, jobStep_close_status, jobStep_errorEv_status, if_neg hc]

/-- Witness for C3 at a concrete trace: one stdout chunk then a clean
exit — the job starts `running` with no logs and ends in a terminal
status. -/
theorem job_store_lifecycle_witness :
    (newJob "job-1" 0).status = JobStatus.running ∧
    (newJob "job-1" 0).logs = [] ∧
    (runJob (newJob "job-1" 0) (jobTraceData ++ jobTraceTerm)).status ≠ JobStatus.running :=
  ⟨(job_store_lifecycle.1 "job-1" 0).1,
   (job_store_lifecycle.1 "job-1" 0).2,
   (job_store_lifecycle.2.2.2.2 "job-1" 0 (jobTraceData ++ jobTraceTerm)
      jobTraceData jobTraceTerm rfl (by decide)
      (Or.inr (Or.inl ⟨some 0, none, 9, rfl⟩)) (by decide)).1⟩

/-! ## C9 — context builder totality and tree bounds -/

theorem firstReadable_none (root : List FsNode) (names : List String) (k : Nat)
    (h : ∀ f ∈ names, readFileSafe root f k = none) :
    firstReadable root names k = none := by
  induction names with
  | nil => rfl
  | cons f rest ih =>
    unfold firstReadable
    rw [h f (List.mem_cons_self f rest)]
    exact ih (fun x hx => h x (List.mem_cons_of_mem f hx))

theorem collectSources_none (root : List FsNode) (k : Nat) (cands : List String)
    (h : ∀ p ∈ cands, readFileSafe root p 1500 = none) :
    collectSources root k cands = [] := by
  induction cands with
  | nil => rfl
  | cons p rest ih =>
    unfold collectSources
    rw [h p (List.mem_cons_self p rest)]
    exact ih (fun x hx => h x (List.mem_cons_of_mem p hx))

theorem length_flatMap_le {α β : Type} (l : List α) (f : α → List β) (c : Nat)
    (h : ∀ a ∈ l, (f a).length ≤ c) : (l.flatMap f).length ≤ c * l.length := by
  induction l with
  | nil => simp
  | cons a rest ih =>
    rw [List.flatMap_cons, List.length_append]
    have h1 := h a (List.mem_cons_self a rest)
    have h2 := ih (fun x hx => h x (List.mem_cons_of_mem a hx))
    simp only [List.length_cons]
    calc (f a).length + (rest.flatMap f).length ≤ c + c * rest.length := by omega
      _ = c * (rest.length + 1) := by ring

theorem dirTreeFuel_one_length (pre : String) (ns : List FsNode) :
    (dirTreeFuel 1 pre ns).length ≤ 40 := by
  unfold dirTreeFuel
  dsimp only
  refine le_trans (length_flatMap_le _ _ 1 ?_) ?_
  · intro a _
    simp
  · rw [List.enum_length, List.length_take]
    omega

theorem dirTreeFuel_two_length (pre : String) (ns : List FsNode) :
    (dirTreeFuel 2 pre ns).length ≤ 40 * 41 := by
  unfold dirTreeFuel
  dsimp only
  refine le_trans (length_flatMap_le _ _ 41 ?_) ?_
  · intro a _
    simp only [List.length_cons]
    split
    · exact Nat.succ_le_succ (dirTreeFuel_one_length _ _)
    · simp
  · rw [List.enum_length, List.length_take]
    omega

/-- Claim C9: the context builder is a total function (it is defined for
every checkout, missing files included — every lookup degrades to an
empty field); a checkout on which every optional read fails yields an
`Analysis` whose readme, package excerpt and source files are all
empty/omitted; and the directory-tree rendering is bounded — at most
`40 * 41` lines for the depth-2, 40-entries-per-directory rendering, and
empty once the depth budget is exhausted — regardless of repository
size. -/
theorem analyzeRepo_total_and_bounded :
    (∀ (root : List FsNode) (owner repo : String),
      (∀ f ∈ readmeNames, readFileSafe root f 4000 = none) →
      (∀ f ∈ pkgManifestNames, readFileSafe root f 2500 = none) →
      (∀ p ∈ sourceCandidates (detectType root), readFileSafe root p 1500 = none) →
      analyzeRepo root owner repo =
        { owner := owner, repo := repo, type := detectType root,
          structureText := dirTree 2 root, readme := "", packageFile := "",
          packageContent := "", sourceFiles := [] }) ∧
    (∀ (pre : String) (ns : List FsNode), (dirTreeLines 2 0 pre ns).length ≤ 40 * 41) ∧
    (∀ (pre : String) (ns : List FsNode), dirTreeLines 2 2 pre ns = []) := by
  refine ⟨?_, ?_, fun pre ns => rfl⟩
  · intro root owner repo hreadme hpkg hsrc
    unfold analyzeRepo
    rw [firstReadable_none root readmeNames 4000 hreadme,
      firstReadable_none root pkgManifestNames 2500 hpkg]
    dsimp only
    rw [collectSources_none root 0 (sourceCandidates (detectType root)) hsrc]
    rfl
  · intro pre ns
    exact dirTreeFuel_two_length pre ns

/-- Witness for C9 at the empty checkout: every optional field comes back
empty. -/
theorem analyzeRepo_total_and_bounded_witness :
    analyzeRepo [] "own" "rep" =
      { owner := "own", repo := "rep", type := detectType [],
        structureText := dirTree 2 [], readme := "", packageFile := "",
        packageContent := "", sourceFiles := [] } :=
  analyzeRepo_total_and_bounded.1 [] "own" "rep" (by decide) (by decide) (by decide)

/-! ## C4 — classifier priority chain (corrected: the notebook search is
depth-limited) -/

/-- Counterexample to C4 as stated: `deepNotebookFs` contains a notebook
file (`a/b/c/n.ipynb`) and a root `Dockerfile`, yet classifies as
`infra`, because the classifier's notebook search is bounded at two
directory levels. -/
theorem detectType_deep_notebook_cex :
    fsReadFile deepNotebookFs "a/b/c/n.ipynb" = some "nb" ∧
    strEndsWith "n.ipynb" ".ipynb" = true ∧
    fsExists deepNotebookFs "Dockerfile" = true ∧
    detectType deepNotebookFs = "infra" := by
  refine ⟨rfl, rfl, rfl, ?_⟩
  decide

/-- Claim C4 (amended): classification evaluates the fixed priority chain
`classifierRules` (ml, monorepo, infra, frontend, api, cli, library, with
`generic` as default) with first-match-wins semantics; in particular every
checkout whose depth-2 bounded search finds a notebook file — together
with a container build file or not — classifies as `ml`, never `infra`. -/
theorem detectType_priority_chain :
    (∀ root : List FsNode, detectType root = firstMatch classifierRules root) ∧
    (∀ root : List FsNode,
      findFile (fun n _ => strEndsWith n ".ipynb") 2 0 root = true →
      fsExists root "Dockerfile" = true →
      detectType root = "ml") := by
  constructor
  · intro root
    rfl
  · intro root h _hdocker
    unfold detectType
    rw [if_pos h]

/-- Witness for C4's amended theorem: a top-level notebook beside a
`Dockerfile` classifies as `ml`. -/
theorem detectType_priority_chain_witness :
    detectType notebookDockerFs = "ml" :=
  detectType_priority_chain.2 notebookDockerFs (by decide) (by decide)

/-! ## C7 — reference format validation -/

theorem splitChar_ne_nil (c : Char) (l : List Char) : splitChar c l ≠ [] := by
  cases l with
  | nil => simp [splitChar]
  | cons x xs =>
    unfold splitChar
    by_cases h : x = c
    · simp [h]
    · rw [if_neg h]
      cases splitChar c xs <;> simp

theorem splitChar_singleton_of (c : Char) : ∀ (l : List Char), c ∉ l →
    splitChar c l = [l] := by
  intro l
  induction l with
  | nil => intro _; rfl
  | cons x xs ih =>
    intro h
    have hx : x ≠ c := fun he => h (he ▸ List.mem_cons_self x xs)
    have hxs : c ∉ xs := fun hm => h (List.mem_cons_of_mem x hm)
    unfold splitChar
    rw [if_neg hx, ih hxs]

theorem splitChar_eq_singleton (c : Char) : ∀ (l b : List Char),
    splitChar c l = [b] → l = b ∧ c ∉ b := by
  intro l
  induction l with
  | nil =>
    intro b h
    simp [splitChar] at h
    subst h
    exact ⟨rfl, by simp⟩
  | cons x xs ih =>
    intro b h
    unfold splitChar at h
    by_cases hx : x = c
    · rw [if_pos hx] at h
      have := splitChar_ne_nil c xs
      simp at h
      exact absurd h.2 this
    · rw [if_neg hx] at h
      cases hs : splitChar c xs with
      | nil => exact absurd hs (splitChar_ne_nil c xs)
      | cons hd tl =>
        rw [hs] at h
        have htl : tl = [] := by
          have := congrArg List.length h
          simpa using this
        subst htl
        have hb : b = x :: hd := by
          have := congrArg (fun l => l.headD []) h
          simpa using this.symm
        obtain ⟨hxs, hcd⟩ := ih hd (by rw [hs])
        subst hb hxs
        refine ⟨rfl, ?_⟩
        intro hm
        rcases List.mem_cons.mp hm with he | hm'
        · exact hx he.symm
        · exact hcd hm'

theorem splitChar_eq_pair (c : Char) : ∀ (l a b : List Char),
    splitChar c l = [a, b] → l = a ++ c :: b ∧ c ∉ a ∧ c ∉ b := by
  intro l
  induction l with
  | nil =>
    intro a b h
    simp [splitChar] at h
  | cons x xs ih =>
    intro a b h
    unfold splitChar at h
    by_cases hx : x = c
    · rw [if_pos hx] at h
      have ha : a = [] := by
        have := congrArg (fun l => l.headD [c]) h
        simpa using this.symm
      subst ha
      have hxs : splitChar c xs = [b] := by
        have := congrArg List.tail h
        simpa using this
      obtain ⟨hb, hcb⟩ := splitChar_eq_singleton c xs b hxs
      subst hb hx
      exact ⟨rfl, by simp, hcb⟩
    · rw [if_neg hx] at h
      cases hs : splitChar c xs with
      | nil => exact absurd hs (splitChar_ne_nil c xs)
      | cons hd tl =>
        rw [hs] at h
        have ha : a = x :: hd := by
          have := congrArg (fun l => l.headD []) h
          simpa using this.symm
        have htl : tl = [b] := by
          have := congrArg List.tail h
          simpa using this
        subst ha htl
        obtain ⟨hxs, hchd, hcb⟩ := ih hd b (by rw [hs])
        subst hxs
        refine ⟨rfl, ?_, hcb⟩
        intro hm
        rcases List.mem_cons.mp hm with he | hm'
        · exact hx he.symm
        · exact hchd hm'

theorem splitChar_pair_of (c : Char) : ∀ (a b : List Char), c ∉ a → c ∉ b →
    splitChar c (a ++ c :: b) = [a, b] := by
  intro a
  induction a with
  | nil =>
    intro b _ hcb
    show splitChar c (c :: b) = [[], b]
    unfold splitChar
    rw [if_pos rfl, splitChar_singleton_of c b hcb]
  | cons x a' ih =>
    intro b hca hcb
    have hx : x ≠ c := fun he => hca (he ▸ List.mem_cons_self x a')
    have hca' : c ∉ a' := fun hm => hca (List.mem_cons_of_mem x hm)
    show splitChar c (x :: (a' ++ c :: b)) = [x :: a', b]
    unfold splitChar
    rw [if_neg hx, ih b hca' hcb]

theorem parseArgsGo_mem (t : String) : ∀ (l : List String) (acc : ParsedArgs),
    t ∈ (parseArgsGo l acc).repos → t ∈ acc.repos ∨ strHasChar t '/' = true
  | [], _acc, h => Or.inl h
  | a :: rest, acc, h => by
    unfold parseArgsGo at h
    by_cases h1 : a = "--no-push"
    · rw [if_pos h1] at h
      exact parseArgsGo_mem t rest { acc with noPush := true } h
    · rw [if_neg h1] at h
      by_cases h2 : a = "--no-clone"
      · rw [if_pos h2] at h
        exact parseArgsGo_mem t rest { acc with noClone := true } h
      · rw [if_neg h2] at h
        by_cases h3 : a = "--iterations"
        · rw [if_pos h3] at h
          cases rest with
          | nil => exact Or.inl h
          | cons v rest' =>
            exact parseArgsGo_mem t rest' { acc with iterations := jsIterVal v } h
        · rw [if_neg h3] at h
          by_cases h4 : strStartsWith a "--" = true
          · rw [if_pos h4] at h
            exact parseArgsGo_mem t rest acc h
          · rw [if_neg h4] at h
            by_cases h5 : strHasChar a '/' = true
            · rw [if_pos h5] at h
              rcases parseArgsGo_mem t rest { acc with repos := acc.repos ++ [a] } h with h' | h'
              · rcases List.mem_append.mp h' with h'' | h''
                · exact Or.inl h''
                · rcases List.mem_singleton.mp h'' with rfl
                  exact Or.inr h5
              · exact Or.inr h'
            · rw [if_neg h5] at h
              exact parseArgsGo_mem t rest acc h

/-- Claim C7: a token is accepted (clone attempted) iff it splits into
exactly two non-empty `/`-separated halves; an invalid token is skipped
with the loop state untouched and without the per-reference environment
(network, filesystem) ever being consulted; argv tokens without a `/`
never reach the loop at all; and the five example tokens behave as the
claim lists them. -/
theorem invalid_reference_spec :
    (∀ t : String, validRefFormat t = true ↔
      ∃ a b : List Char, t.data = a ++ '/' :: b ∧ a ≠ [] ∧ b ≠ [] ∧
        '/' ∉ a ∧ '/' ∉ b) ∧
    (∀ (t : String) (homeUser : Option String) (env env' : String → RefEnv)
        (st : List ManifestEntry × List ManifestEntry),
      validRefFormat t = false →
      processRef homeUser env st t = st ∧
      processRef homeUser env' st t = processRef homeUser env st t) ∧
    (∀ (t : String) (argv : List String), strHasChar t '/' = false →
      t ∉ (parseArgs argv).repos) ∧
    (validRefFormat "foo/bar" = true ∧ validRefFormat "foo" = false ∧
      validRefFormat "foo/" = false ∧ validRefFormat "/bar" = false ∧
      validRefFormat "foo/bar/baz" = false) := by
  refine ⟨?_, ?_, ?_, by decide, by decide, by decide, by decide, by decide⟩
  · intro t
    constructor
    · intro h
      unfold validRefFormat jsSplit at h
      cases hs : splitChar '/' t.data with
      | nil => rw [hs] at h; simp at h
      | cons la rest =>
        cases rest with
        | nil => rw [hs] at h; simp at h
        | cons lb rest2 =>
          cases rest2 with
          | cons _ _ => rw [hs] at h; simp at h
          | nil =>
            rw [hs] at h
            simp only [List.map_cons, List.map_nil] at h
            obtain ⟨hdec, hla, hlb⟩ := splitChar_eq_pair '/' t.data la lb hs
            refine ⟨la, lb, hdec, ?_, ?_, hla, hlb⟩
            · intro hla0
              subst hla0
              simp [String.isEmpty, String.length] at h
            · intro hlb0
              subst hlb0
              simp [String.isEmpty, String.length] at h
    · rintro ⟨a, b, hdec, ha, hb, hca, hcb⟩
      unfold validRefFormat jsSplit
      rw [hdec, splitChar_pair_of '/' a b hca hcb]
      simp only [List.map_cons, List.map_nil]
      simp [String.isEmpty, String.length, ha, hb]
  · intro t homeUser env env' st h
    constructor
    · unfold processRef
      rw [h]
      simp
    · unfold processRef
      rw [h]
      simp
  · intro t argv hslash
    intro hmem
    unfold parseArgs at hmem
    rcases parseArgsGo_mem t argv _ hmem with h | h
    · simp at h
    · rw [h] at hslash
      exact absurd hslash (by simp)

/-- Witness for C7: `foo/bar` is valid (with its two non-empty halves);
`foo/` is skipped with the loop state untouched; `foo` never reaches the
loop. -/
theorem invalid_reference_spec_witness :
    validRefFormat "foo/bar" = true ∧
    processRef none refEnvIdle ([], []) "foo/" = ([], []) ∧
    "foo" ∉ (parseArgs ["foo", "a/b"]).repos :=
  ⟨(invalid_reference_spec.1 "foo/bar").mpr
      ⟨"foo".data, "bar".data, by decide, by decide, by decide, by decide, by decide⟩,
   (invalid_reference_spec.2.1 "foo/" none refEnvIdle refEnvIdle ([], []) (by decide)).1,
   invalid_reference_spec.2.2.1 "foo" ["foo", "a/b"] (by decide)⟩

/-! ## C1 — orchestrator batch semantics -/

theorem processRef_eq (homeUser : Option String) (env : String → RefEnv)
    (st : List ManifestEntry × List ManifestEntry) (t : String) :
    processRef homeUser env st t =
      match refSuccessEntry homeUser env t with
      | none => st
      | some e => (upsertManifestEntry st.1 e, st.2 ++ [e]) := by
  unfold processRef refSuccessEntry
  by_cases h1 : validRefFormat t = true
  · simp only [h1, Bool.not_true, Bool.false_eq_true, if_false]
    by_cases h2 : (env t).cloneOk = true
    · simp only [h2, Bool.not_true, Bool.false_eq_true, if_false]
      cases h3 : (env t).genOutcome <;> simp
    · simp only [Bool.not_eq_true] at h2
      simp [h2]
  · simp only [Bool.not_eq_true] at h1
    simp [h1]

theorem foldl_processRef (homeUser : Option String) (env : String → RefEnv) :
    ∀ (l : List String) (m g : List ManifestEntry),
    l.foldl (processRef homeUser env) (m, g) =
      ((l.filterMap (refSuccessEntry homeUser env)).foldl upsertManifestEntry m,
       g ++ l.filterMap (refSuccessEntry homeUser env)) := by
  intro l
  induction l with
  | nil => intro m g; simp
  | cons t rest ih =>
    intro m g
    rw [List.foldl_cons, processRef_eq]
    cases h : refSuccessEntry homeUser env t with
    | none =>
      rw [List.filterMap_cons_none h]
      exact ih m g
    | some e =>
      rw [List.filterMap_cons_some h, List.foldl_cons]
      rw [ih (upsertManifestEntry m e) (g ++ [e])]
      simp

/-- Claim C1: in every run, the manifest file is written exactly once when
at least one reference succeeded and never otherwise; the run exits with
error status iff no reference succeeded; and (when the pre-loop argument
checks pass) the successful entries are exactly the per-reference
`filterMap` of the batch — each reference's success or failure is local
and the loop continues past failing references; the written manifest is
the read manifest with this run's entries upserted. -/
theorem main_batch_semantics (apiKey homeUser disk : Option String)
    (env : String → RefEnv) (argv : List String) :
    ((mainRun apiKey homeUser disk env argv).manifestWrites =
      if (mainRun apiKey homeUser disk env argv).generated.isEmpty then 0 else 1) ∧
    ((mainRun apiKey homeUser disk env argv).exitError = true ↔
      (mainRun apiKey homeUser disk env argv).generated = []) ∧
    ((parseArgs argv).repos ≠ [] → (parseArgs argv).repos.length ≤ MAX_REPOS →
      (apiKey.getD "") ≠ "" →
      (mainRun apiKey homeUser disk env argv).generated =
        (parseArgs argv).repos.filterMap (refSuccessEntry homeUser env) ∧
      (mainRun apiKey homeUser disk env argv).writtenManifest =
        (if (parseArgs argv).repos.filterMap (refSuccessEntry homeUser env) = [] then none
         else some (((parseArgs argv).repos.filterMap
            (refSuccessEntry homeUser env)).foldl upsertManifestEntry
            (readManifest disk)))) := by
  unfold mainRun
  by_cases hempty : (parseArgs argv).repos.isEmpty = true
  · simp only [hempty, if_true]
    refine ⟨rfl, by simp, ?_⟩
    intro hne
    exact absurd (List.isEmpty_iff.mp hempty) hne
  · simp only [hempty, Bool.false_eq_true, if_false]
    by_cases hmax : MAX_REPOS < (parseArgs argv).repos.length
    · simp only [hmax, if_true]
      refine ⟨rfl, by simp, ?_⟩
      intro _ hle
      omega
    · simp only [hmax, if_false]
      by_cases hkey : (apiKey.getD "") = ""
      · simp only [hkey, if_true]
        refine ⟨rfl, by simp, ?_⟩
        intro _ _ hk
        exact absurd rfl hk
      · simp only [hkey, if_false]
        rw [foldl_processRef homeUser env (parseArgs argv).repos (readManifest disk) []]
        simp only [List.nil_append]
        by_cases hgen : (parseArgs argv).repos.filterMap (refSuccessEntry homeUser env) = []
        · simp [hgen]
        · refine ⟨?_, ?_, ?_⟩
          · simp [hgen]
          · simp [hgen]
          · intro _ _ _
            simp [hgen]

/-- Witness for C1 at a concrete batch: of three references the second
fails to clone; the other two succeed, the manifest is written exactly
once with both entries, and the run does not exit with error status. -/
theorem main_batch_semantics_witness :
    (mainRun (some "key") (some "a") none batchEnvA ["a/one", "b/two", "c/three"]).generated =
      ["a/one", "b/two", "c/three"].filterMap (refSuccessEntry (some "a") batchEnvA) ∧
    ((mainRun (some "key") (some "a") none batchEnvA
        ["a/one", "b/two", "c/three"]).generated.map ManifestEntry.fullName =
      ["a/one", "c/three"]) ∧
    (mainRun (some "key") (some "a") none batchEnvA ["a/one", "b/two", "c/three"]).manifestWrites = 1 ∧
    (mainRun (some "key") (some "a") none batchEnvA ["a/one", "b/two", "c/three"]).exitError = false :=
  ⟨((main_batch_semantics (some "key") (some "a") none batchEnvA
      ["a/one", "b/two", "c/three"]).2.2 (by decide) (by decide) (by decide)).1,
   by decide, by decide, by decide⟩

/-! ## C5 — refinement loop protocol (corrected: the marker is guaranteed
in every round's prompt, not in the model's output) -/

theorem occursIn_take_refinePrompt (a : Analysis) (ext : Bool) (iters i : Nat)
    (html : String) :
    occursIn (strTake 12000 html) (refinePrompt a ext iters i html) := by
  unfold refinePrompt
  repeat
    first
    | exact occursIn_left _ (occursIn_self _)
    | apply occursIn_right

theorem occursIn_marker_refinePrompt (a : Analysis) (iters i : Nat) (html : String) :
    occursIn (externalMarker a.owner) (refinePrompt a true iters i html) := by
  unfold refinePrompt
  apply occursIn_right
  apply occursIn_left
  exact occursIn_mid _ _ _

theorem occursIn_marker_initialPrompt (a : Analysis) :
    occursIn (externalMarker a.owner) (initialPrompt a true) := by
  unfold initialPrompt
  apply occursIn_right
  apply occursIn_left
  exact occursIn_mid _ _ _

theorem refineRounds_succ_eq (oracle : List (String × String) → String) (a : Analysis)
    (ext : Bool) (iters i left : Nat) (html : String) :
    refineRounds oracle a ext iters i (left + 1) html =
      ((refineRounds oracle a ext iters (i + 1) left
          (extractHTML (oracle (refineConv a ext iters i html)))).1,
       ⟨refineConv a ext iters i html, oracle (refineConv a ext iters i html)⟩ ::
       (refineRounds oracle a ext iters (i + 1) left
          (extractHTML (oracle (refineConv a ext iters i html)))).2) := rfl

theorem refineRounds_length (oracle : List (String × String) → String) (a : Analysis)
    (ext : Bool) (iters : Nat) :
    ∀ (left i : Nat) (html : String),
    (refineRounds oracle a ext iters i left html).2.length = left := by
  intro left
  induction left with
  | zero => intro i html; rfl
  | succ n ih =>
    intro i html
    rw [refineRounds_succ_eq]
    simp only [List.length_cons]
    rw [ih]

theorem refineRounds_chain (oracle : List (String × String) → String) (a : Analysis)
    (ext : Bool) (iters : Nat) :
    ∀ (left i : Nat) (html : String),
    RefineChain a ext iters i html (refineRounds oracle a ext iters i left html).2 := by
  intro left
  induction left with
  | zero => intro i html; exact trivial
  | succ n ih =>
    intro i html
    rw [refineRounds_succ_eq]
    exact ⟨rfl, ih (i + 1) _⟩

theorem refineChain_mem (a : Analysis) (ext : Bool) (iters : Nat) :
    ∀ (rest : List ModelCall) (i : Nat) (doc : String),
    RefineChain a ext iters i doc rest → ∀ c ∈ rest,
    ∃ i' doc', c.conv = refineConv a ext iters i' doc' := by
  intro rest
  induction rest with
  | nil => intro i doc _ c hc; exact absurd hc (List.not_mem_nil c)
  | cons c0 rest' ih =>
    intro i doc hchain c hc
    obtain ⟨hc0, hrest⟩ := hchain
    rcases List.mem_cons.mp hc with rfl | hmem
    · exact ⟨i, doc, hc0⟩
    · exact ih (i + 1) (extractHTML c0.response) hrest c hmem

theorem refineChain_chain' (a : Analysis) (ext : Bool) (iters : Nat) :
    ∀ (rest : List ModelCall) (i : Nat) (doc : String),
    RefineChain a ext iters i doc rest →
    List.Chain' (fun c c' => ∃ p, c'.conv = [("system", systemPrompt), ("user", p)] ∧
      occursIn (strTake 12000 (extractHTML c.response)) p) rest ∧
    (∀ c ∈ rest.head?, ∃ p, c.conv = [("system", systemPrompt), ("user", p)] ∧
      occursIn (strTake 12000 doc) p) := by
  intro rest
  induction rest with
  | nil => intro i doc _; exact ⟨List.chain'_nil, by simp⟩
  | cons c0 rest' ih =>
    intro i doc hchain
    obtain ⟨hc0, hrest⟩ := hchain
    obtain ⟨ihchain, ihhead⟩ := ih (i + 1) (extractHTML c0.response) hrest
    constructor
    · rw [List.chain'_cons']
      exact ⟨ihhead, ihchain⟩
    · intro c hc
      simp only [List.head?_cons, Option.mem_def, Option.some.injEq] at hc
      subst hc
      exact ⟨refinePrompt a ext iters i doc, hc0,
        occursIn_take_refinePrompt a ext iters i doc⟩

/-- Claim C5 (amended): for every iteration count `N ≥ 1` the refinement
loop performs exactly `N` model calls (exactly 1 when `N = 1`); the first
call sends the initial prompt and each round `2..N` resubmits the first
12000 characters of the previous round's extracted document inside its
refinement prompt; and when `isExternal` is set, the external-repository
warning marker appears in the round-1 prompt and in every subsequent
round's prompt.  (The marker cannot be guaranteed in the model's *output*
— see the counterexample.) -/
theorem generatePage_call_protocol (oracle : List (String × String) → String)
    (a : Analysis) (ext : Bool) (N : Nat) (hN : 1 ≤ N) :
    ((generatePage oracle a ext N).2.length = N) ∧
    (∃ rest, (generatePage oracle a ext N).2 =
        ⟨initialConv a ext, oracle (initialConv a ext)⟩ :: rest ∧
      RefineChain a ext N 2 (extractHTML (oracle (initialConv a ext))) rest) ∧
    (ext = true → ∀ c ∈ (generatePage oracle a ext N).2,
      ∃ p, c.conv = [("system", systemPrompt), ("user", p)] ∧
        occursIn (externalMarker a.owner) p) ∧
    List.Chain' (fun c c' => ∃ p, c'.conv = [("system", systemPrompt), ("user", p)] ∧
      occursIn (strTake 12000 (extractHTML c.response)) p)
      (generatePage oracle a ext N).2 := by
  have hshape : (generatePage oracle a ext N).2 =
      ⟨initialConv a ext, oracle (initialConv a ext)⟩ ::
      (refineRounds oracle a ext N 2 (N - 1)
        (extractHTML (oracle (initialConv a ext)))).2 := rfl
  refine ⟨?_, ?_, ?_, ?_⟩
  · rw [hshape]
    simp only [List.length_cons]
    rw [refineRounds_length]
    omega
  · exact ⟨_, hshape, refineRounds_chain oracle a ext N (N - 1) 2 _⟩
  · intro hext c hc
    subst hext
    rw [hshape] at hc
    rcases List.mem_cons.mp hc with rfl | hmem
    · exact ⟨initialPrompt a true, rfl, occursIn_marker_initialPrompt a⟩
    · obtain ⟨i', doc', hconv⟩ := refineChain_mem a true N _ 2 _
        (refineRounds_chain oracle a true N (N - 1) 2 _) c hmem
      exact ⟨refinePrompt a true N i' doc', hconv,
        occursIn_marker_refinePrompt a N i' doc'⟩
  · rw [hshape, List.chain'_cons']
    obtain ⟨hchain, hhead⟩ := refineChain_chain' a ext N _ 2 _
      (refineRounds_chain oracle a ext N (N - 1) 2 _)
    exact ⟨hhead, hchain⟩

/-- Witness for C5's amended theorem at a concrete run: two iterations on
a concrete analysis with `isExternal` set — two calls are made. -/
theorem generatePage_call_protocol_witness :
    ((generatePage (fun _ => "<p>mock</p>") (analyzeRepo [] "alice" "proj") true 2).2.length
      = 2) :=
  (generatePage_call_protocol (fun _ => "<p>mock</p>") (analyzeRepo [] "alice" "proj")
    true 2 (by decide)).1

/-- Counterexample to C5 as stated: with `isExternal` set and a model that
returns marker-free text, the round-1 *output* (equal to the final
document at `N = 1`) does not contain the external-repository warning
marker — only the prompts carry it. -/
theorem generatePage_round1_output_marker_cex :
    strIncludes
      (generatePage (fun _ => "plain text") (analyzeRepo [] "alice" "proj") true 1).1
      (externalMarker "alice") = false ∧
    (generatePage (fun _ => "plain text") (analyzeRepo [] "alice" "proj") true 1).2.length
      = 1 := by
  constructor
  · decide
  · decide
